import Mathlib

/-! # poomer-raylib-bella_onimage: the preview window

A shallow embedding of `src/poomer-raylib-bella_onimage.cpp` (class
`PathTracerPreview`) and theorems about it.

Modelling conventions.

* A C++ `int` is an `Int`. Signed overflow is undefined behaviour in C++, so the
  embedding describes the runs in which every `int` product is representable.
* A `float` is a rational number (`ℚ`): `0.5f` is `1/2`, `0.01f` is `1/100`.
  Where the rounding of a float operation decides a statement (the fit of the
  drawn image in the window), the operations of the same source lines are also
  embedded with IEEE binary32 rounding to nearest, ties to even (`roundFloat`,
  `fitScaleFloat`, `drawPositionFloat`).
* A `const unsigned char*` argument is an `Option (List Byte)`: `none` is the null
  pointer, `some bytes` points at `bytes`. A heap block owned by one holder is
  identified with its contents.
* Calls into raylib, the Bella engine, `std::cerr` and `delete[]` are recorded, in
  order, in a ghost field `trace` of the object. What an external call returns
  (the texture from `LoadTextureFromImage`, button and pointer queries, the
  contents of freshly allocated memory) is an input of the embedded function.
* The mutex only serialises the accesses to the queue; each locked block is one
  atomic step of the embedding.
* Within one iteration of the loop of `run` the window and the engine give one
  answer to each query: the button edges, the pointer position and
  `engine->rendering()` are inputs of the iteration.
-/

namespace PoomerPreview

/-- An `unsigned char`. -/
abbrev Byte := Fin 256

/-- The raylib `Vector2`, with rational coordinates. -/
structure Vector2 where
  x : ℚ
  y : ℚ
deriving DecidableEq, Repr

/-- The raylib `Texture2D`; `id = 0` is "no texture". -/
structure Texture2D where
  id : Nat
  width : Int
  height : Int
  mipmaps : Int
  format : Int
deriving DecidableEq, Repr

/-- The raylib `Image`; `data` is the pixel buffer it points at. -/
structure Image where
  data : List Byte
  width : Int
  height : Int
  mipmaps : Int
  format : Int
deriving DecidableEq, Repr

/-- The raylib enum value `PIXELFORMAT_UNCOMPRESSED_R8G8B8A8`. -/
def PIXELFORMAT_UNCOMPRESSED_R8G8B8A8 : Int := 7

/-- The `struct ImageData` (source lines 69-77): one queued frame. -/
structure ImageData where
  data : Option (List Byte)
  width : Int
  height : Int
  channels : Int
deriving DecidableEq, Repr

/-- The `dl::bella_sdk::Engine` a non-null `engine` pointer refers to. -/
structure Engine where
  addr : Nat
deriving DecidableEq, Repr

/-- An external call made by the program, with its arguments. -/
inductive Event where
  | cerr (msg : String)
  | UnloadTexture (t : Texture2D)
  | LoadTextureFromImage (img : Image)
  | UnloadImage (img : Image)
  | deleteArray (buf : Option (List Byte))
  | EventScopeBegin
  | EventScopeEnd
  | orbitCamera (dx dy : ℚ)
  | panCamera (dx dy : ℚ) (flag : Bool)
  | zoomCamera (dy : ℚ) (flag : Bool)
  | BeginDrawing
  | ClearBackground
  | DrawTextureEx (t : Texture2D) (position : Vector2) (rotation : ℚ) (scale : ℚ)
  | DrawText (text : String) (posX posY fontSize : Int)
  | EndDrawing
deriving DecidableEq, Repr

/-- The data members of `class PathTracerPreview` (source lines 80-112), and the
ghost `trace` of external calls made so far. -/
structure PathTracerPreview where
  screenWidth : Int
  screenHeight : Int
  texture : Texture2D
  imageLoaded : Bool
  imageScale : ℚ
  imageQueue : List ImageData
  orbiting : Bool
  panning : Bool
  orbitSpeed : ℚ
  panSpeed : ℚ
  prevMousePos : Vector2
  engine : Option Engine
  trace : List Event
deriving DecidableEq, Repr

/-- The value `{0}` of a `Texture2D`. -/
def zeroTexture : Texture2D := ⟨0, 0, 0, 0, 0⟩

/-- The object as the constructor leaves it (source lines 102-117). -/
def PathTracerPreview.create (width height : Int) : PathTracerPreview :=
  { screenWidth := width
    screenHeight := height
    texture := zeroTexture
    imageLoaded := false
    imageScale := 1
    imageQueue := []
    orbiting := false
    panning := false
    orbitSpeed := 1 / 2
    panSpeed := 1 / 100
    prevMousePos := ⟨0, 0⟩
    engine := none
    trace := [] }

/-- Record one external call. -/
def PathTracerPreview.emit (s : PathTracerPreview) (e : Event) : PathTracerPreview :=
  { s with trace := s.trace ++ [e] }

/-- The method `setEngine` (source lines 145-154). -/
def setEngine (engineRef : Option Engine) (s : PathTracerPreview) : PathTracerPreview :=
  { s with engine := engineRef }

/-- The method `queueImageData` (source lines 174-190): reject bad parameters, else copy
`width * height * channels` bytes and push the copy at the back of the queue. -/
def queueImageData (data : Option (List Byte)) (width height channels : Int)
    (s : PathTracerPreview) : PathTracerPreview :=
  match data with
  | none => s.emit (Event.cerr "ERROR: Invalid image data parameters")
  | some bytes =>
    if width ≤ 0 ∨ height ≤ 0 ∨ channels ≤ 0 then
      s.emit (Event.cerr "ERROR: Invalid image data parameters")
    else
      let dataSize : Nat := (width * height * channels).toNat
      let dataCopy : List Byte := bytes.take dataSize
      { s with imageQueue := s.imageQueue ++ [ImageData.mk (some dataCopy) width height channels] }

/-- What `updateImage` gets from outside in one call. -/
structure Env where
  /-- Contents of newly allocated, uninitialised memory, by offset. -/
  fresh : Nat → Byte
  /-- What `rl::LoadTextureFromImage` returns. -/
  loaded : Texture2D

/-- The read `data[idx]`. A read outside the buffer is undefined behaviour in
C++; the embedding yields 0 there. -/
def readByte (data : List Byte) (idx : Int) : Byte :=
  data.getD idx.toNat 0

/-- One iteration of the conversion loop (source lines 252-264), for pixel `i`. -/
def convertPixel (data : List Byte) (channels : Int) (dataCopy : List Byte) (i : Nat) :
    List Byte :=
  let srcIdx : Int := (i : Int) * channels
  let destIdx : Nat := i * 4
  if channels ≥ 3 then
    let d0 := dataCopy.set destIdx (readByte data srcIdx)
    let d1 := d0.set (destIdx + 1) (readByte data (srcIdx + 1))
    let d2 := d1.set (destIdx + 2) (readByte data (srcIdx + 2))
    d2.set (destIdx + 3) (if channels ≥ 4 then readByte data (srcIdx + 3) else 255)
  else if channels = 1 then
    -- the chained assignment stores `data[srcIdx]` right to left
    let d2 := dataCopy.set (destIdx + 2) (readByte data srcIdx)
    let d1 := d2.set (destIdx + 1) (readByte data srcIdx)
    let d0 := d1.set destIdx (readByte data srcIdx)
    d0.set (destIdx + 3) 255
  else
    dataCopy

/-- The buffer `dataCopy` after lines 248-265: `width * height * 4` bytes of
fresh memory, then the conversion loop over `i < width * height`. -/
def convertToRGBA (fresh : Nat → Byte) (data : List Byte) (width height channels : Int) :
    List Byte :=
  let dataCopy : List Byte := (List.range (width * height * 4).toNat).map fresh
  (List.range (width * height).toNat).foldl (convertPixel data channels) dataCopy

/-- The scale of lines 295-297 and 325-327: the smaller of the two ratios, taken
over exact rationals (`fitScaleFloat` is the same computation with float
rounding). -/
def fitScale (screenWidth screenHeight : Int) (texture : Texture2D) : ℚ :=
  let scaleX : ℚ := ((screenWidth - 40 : Int) : ℚ) / (texture.width : ℚ)
  let scaleY : ℚ := ((screenHeight - 40 : Int) : ℚ) / (texture.height : ℚ)
  if scaleX < scaleY then scaleX else scaleY

/-- The method `updateImage` (source lines 232-304). -/
def updateImage (env : Env) (data : Option (List Byte)) (width height channels : Int)
    (s : PathTracerPreview) : PathTracerPreview :=
  match data with
  | none => s.emit (Event.cerr "ERROR: Data pointer is NULL")
  | some bytes =>
    let s1 : PathTracerPreview :=
      if s.texture.id ≠ 0 then
        { s.emit (Event.UnloadTexture s.texture) with texture := zeroTexture }
      else s
    if width * height * 4 < 0 then
      -- `new unsigned char[n]` with negative `n` throws; caught at line 299
      s1.emit (Event.cerr "ERROR: Exception in updateImage: ")
    else
      let dataCopy := convertToRGBA env.fresh bytes width height channels
      let image : Image := ⟨dataCopy, width, height, 1, PIXELFORMAT_UNCOMPRESSED_R8G8B8A8⟩
      let s2 : PathTracerPreview :=
        { s1.emit (Event.LoadTextureFromImage image) with texture := env.loaded }
      let s3 := s2.emit (Event.UnloadImage image)
      if s3.texture.id = 0 then
        s3.emit (Event.cerr "ERROR: Failed to create texture")
      else
        { s3 with
          imageLoaded := true
          imageScale := fitScale s3.screenWidth s3.screenHeight s3.texture }

/-- The locked block of `processImageQueue` (source lines 197-208): the unit
taken, `hasData`, and the object with the front of the queue removed. -/
def takeFront (s : PathTracerPreview) : ImageData × Bool × PathTracerPreview :=
  match s.imageQueue with
  | [] => (ImageData.mk none 0 0 0, false, s)
  | front :: rest => (front, true, { s with imageQueue := rest })

/-- The method `processImageQueue` (source lines 196-216). -/
def processImageQueue (env : Env) (s : PathTracerPreview) : PathTracerPreview :=
  let r := takeFront s
  let imageData := r.1
  let hasData := r.2.1
  let s1 := r.2.2
  if hasData then
    (updateImage env imageData.data imageData.width imageData.height imageData.channels s1).emit
      (Event.deleteArray imageData.data)
  else s1

/-- The loop of `clearImageQueue` (source lines 222-226), run on the units still
queued: take the front, `delete[]` its buffer, pop it. -/
def clearLoop : List ImageData → PathTracerPreview → PathTracerPreview
  | [], s => s
  | imageData :: rest, s =>
    clearLoop rest { s.emit (Event.deleteArray imageData.data) with imageQueue := rest }

/-- The method `clearImageQueue` (source lines 220-227). -/
def clearImageQueue (s : PathTracerPreview) : PathTracerPreview :=
  clearLoop s.imageQueue s

/-- What the window and the engine answer during one `handleMouseInteraction`
call: the button edges, the pointer position and `engine->rendering()`. -/
structure MouseInput where
  /-- Answer of `IsMouseButtonPressed(MOUSE_LEFT_BUTTON)`. -/
  leftPressed : Bool
  /-- Answer of `IsMouseButtonReleased(MOUSE_LEFT_BUTTON)`. -/
  leftReleased : Bool
  /-- Answer of `IsMouseButtonPressed(MOUSE_MIDDLE_BUTTON)`. -/
  middlePressed : Bool
  /-- Answer of `IsMouseButtonReleased(MOUSE_MIDDLE_BUTTON)`. -/
  middleReleased : Bool
  /-- Answer of `GetMousePosition()`. -/
  mousePosition : Vector2
  /-- Answer of `engine->rendering()`. -/
  rendering : Bool
deriving DecidableEq, Repr

/-- Lines 397-403: the left button starts or ends orbiting. -/
def leftButton (inp : MouseInput) (s : PathTracerPreview) : PathTracerPreview :=
  if inp.leftPressed then
    { s with orbiting := true, panning := false, prevMousePos := inp.mousePosition }
  else if inp.leftReleased then
    { s with orbiting := false }
  else s

/-- Lines 406-412: the middle button starts or ends panning. -/
def middleButton (inp : MouseInput) (s : PathTracerPreview) : PathTracerPreview :=
  if inp.middlePressed then
    { s with panning := true, orbiting := false, prevMousePos := inp.mousePosition }
  else if inp.middleReleased then
    { s with panning := false }
  else s

/-- Lines 423-452: while orbiting, turn the pointer movement into an orbit. -/
def orbitStep (inp : MouseInput) (s : PathTracerPreview) : PathTracerPreview :=
  if s.orbiting then
    let currentMousePos := inp.mousePosition
    let deltaX := (currentMousePos.x - s.prevMousePos.x) * s.orbitSpeed
    let deltaY := (currentMousePos.y - s.prevMousePos.y) * s.orbitSpeed
    if deltaX ≠ 0 ∨ deltaY ≠ 0 then
      let s1 :=
        if inp.rendering then
          ((s.emit Event.EventScopeBegin).emit (Event.orbitCamera deltaX deltaY)).emit
            Event.EventScopeEnd
        else s
      { s1 with prevMousePos := currentMousePos }
    else s
  else s

/-- Lines 455-481: while panning, turn the pointer movement into a pan. -/
def panStep (inp : MouseInput) (s : PathTracerPreview) : PathTracerPreview :=
  if s.panning then
    let currentMousePos := inp.mousePosition
    let deltaX := (currentMousePos.x - s.prevMousePos.x) * s.panSpeed
    let deltaY := (currentMousePos.y - s.prevMousePos.y) * s.panSpeed
    if deltaX ≠ 0 ∨ deltaY ≠ 0 then
      let s1 :=
        if inp.rendering then
          ((s.emit Event.EventScopeBegin).emit (Event.panCamera deltaX deltaY true)).emit
            Event.EventScopeEnd
        else s
      { s1 with prevMousePos := currentMousePos }
    else s
  else s

/-- The method `handleMouseInteraction` (source lines 392-482). -/
def handleMouseInteraction (inp : MouseInput) (s : PathTracerPreview) : PathTracerPreview :=
  match s.engine with
  | none => s
  | some _ => panStep inp (orbitStep inp (middleButton inp (leftButton inp s)))

/-- What the outside answers during one iteration of the loop of `run`. -/
structure TickInput where
  /-- Fresh memory and texture creation, for `processImageQueue`. -/
  env : Env
  /-- Answer of `IsWindowResized()`. -/
  windowResized : Bool
  /-- Answer of `GetScreenWidth()`. -/
  getScreenWidth : Int
  /-- Answer of `GetScreenHeight()`. -/
  getScreenHeight : Int
  /-- Answer of `GetMouseWheelMove()`. -/
  wheelMove : ℚ
  /-- The button, pointer and engine answers. -/
  mouse : MouseInput

/-- Lines 318-329 of `run`: on a resize, take the new window size and, with a
texture loaded, refit the scale. -/
def resizeStep (windowResized : Bool) (getScreenWidth getScreenHeight : Int)
    (s : PathTracerPreview) : PathTracerPreview :=
  if windowResized then
    let s1 := { s with screenWidth := getScreenWidth, screenHeight := getScreenHeight }
    if s1.imageLoaded ∧ s1.texture.id ≠ 0 then
      { s1 with imageScale := fitScale s1.screenWidth s1.screenHeight s1.texture }
    else s1
  else s

/-- Lines 334-343 of `run`: a wheel movement dollies the camera. -/
def wheelStep (wheelMove : ℚ) (rendering : Bool) (s : PathTracerPreview) : PathTracerPreview :=
  if wheelMove ≠ 0 then
    if s.engine.isSome ∧ rendering then
      ((s.emit Event.EventScopeBegin).emit (Event.zoomCamera (wheelMove * (4 / 5)) true)).emit
        Event.EventScopeEnd
    else s
  else s

/-- Lines 332-347 of `run`: input is handled only once an image is loaded. -/
def updateStep (inp : TickInput) (s : PathTracerPreview) : PathTracerPreview :=
  if s.imageLoaded then
    handleMouseInteraction inp.mouse (wheelStep inp.wheelMove inp.mouse.rendering s)
  else s

/-- The position handed to `DrawTextureEx` (source lines 358-361), taken over
exact rationals (`drawPositionFloat` is the same computation with float
rounding). -/
def drawPosition (s : PathTracerPreview) : Vector2 :=
  ⟨(s.screenWidth : ℚ) / 2 - (s.texture.width : ℚ) * s.imageScale / 2,
   (s.screenHeight : ℚ) / 2 - (s.texture.height : ℚ) * s.imageScale / 2⟩

/-- What lines 354-385 of `run` present: the texture, centred, or the waiting
text. -/
def presented (s : PathTracerPreview) : Event :=
  if s.imageLoaded ∧ s.texture.id ≠ 0 then
    Event.DrawTextureEx s.texture (drawPosition s) 0 s.imageScale
  else
    Event.DrawText "Waiting for Bella to render..."
      (Int.tdiv s.screenWidth 2 - 150) (Int.tdiv s.screenHeight 2 - 10) 20

/-- Lines 350-387 of `run`: the drawing of one frame. -/
def drawStep (s : PathTracerPreview) : PathTracerPreview :=
  (((s.emit Event.BeginDrawing).emit Event.ClearBackground).emit (presented s)).emit
    Event.EndDrawing

/-- One iteration of the loop of `run` (source lines 313-387). -/
def runIteration (inp : TickInput) (s : PathTracerPreview) : PathTracerPreview :=
  drawStep (updateStep inp
    (resizeStep inp.windowResized inp.getScreenWidth inp.getScreenHeight
      (processImageQueue inp.env s)))


/-- A run of producer calls: `queueImageData` once per entry, in order; an entry
holds the four arguments of its call. -/
def queueAll (calls : List ImageData) (s : PathTracerPreview) : PathTracerPreview :=
  calls.foldl (fun acc c => queueImageData c.data c.width c.height c.channels acc) s

/-- The object after `k` calls of `processImageQueue`, the `j`-th of them (from
0) in the environment `envs j`. -/
def drain (envs : Nat → Env) : Nat → PathTracerPreview → PathTracerPreview
  | 0, s => s
  | k + 1, s => processImageQueue (envs k) (drain envs k s)

/-- A call that `queueImageData` accepts: non-null data and positive sizes. -/
def validCall (c : ImageData) : Prop :=
  c.data ≠ none ∧ 0 < c.width ∧ 0 < c.height ∧ 0 < c.channels

/-- The images handed to `LoadTextureFromImage` in a trace, in order. -/
def uploads (trace : List Event) : List Image :=
  trace.filterMap (fun e =>
    match e with
    | Event.LoadTextureFromImage img => some img
    | _ => none)

/-- An example object: window 400x400, showing a 2x2 texture with id 7. -/
def shownExample : PathTracerPreview :=
  { PathTracerPreview.create 400 400 with
    texture := ⟨7, 2, 2, 1, 7⟩
    imageLoaded := true
    imageScale := 180 }

/-- An example environment in which `LoadTextureFromImage` returns texture 9. -/
def uploadWorks : Env := ⟨fun _ => 0, ⟨9, 1, 1, 1, 7⟩⟩

/-- An example environment in which `LoadTextureFromImage` fails (id 0). -/
def uploadFails : Env := ⟨fun _ => 0, ⟨0, 1, 1, 1, 7⟩⟩

/-- The calls into the Bella engine: scene-update scopes and camera commands. -/
def isEngineCall : Event → Bool
  | Event.EventScopeBegin => true
  | Event.EventScopeEnd => true
  | Event.orbitCamera _ _ => true
  | Event.panCamera _ _ _ => true
  | Event.zoomCamera _ _ => true
  | _ => false

/-- The engine calls of a trace, in order. -/
def engineCalls (trace : List Event) : List Event :=
  trace.filter isEngineCall

/-- The buffers given to `delete[]` in a trace, in order. -/
def released (trace : List Event) : List (Option (List Byte)) :=
  trace.filterMap (fun e =>
    match e with
    | Event.deleteArray buf => some buf
    | _ => none)

/-- The step from `before` to `after` leaves the engine reference and the
interaction state as they were and makes no engine call. -/
def keepsInteraction (before after : PathTracerPreview) : Prop :=
  after.engine = before.engine ∧ after.orbiting = before.orbiting ∧
  after.panning = before.panning ∧ after.prevMousePos = before.prevMousePos ∧
  engineCalls after.trace = engineCalls before.trace

/-- The object when the button handling of a `handleMouseInteraction` call
(source lines 397-412) is done, before the orbit and pan blocks. -/
def buttonHandling (inp : MouseInput) (s : PathTracerPreview) : PathTracerPreview :=
  middleButton inp (leftButton inp s)

/-- Five producer calls, for a teardown with units still queued. -/
def fiveCalls : List ImageData :=
  [⟨some [1], 1, 1, 1⟩, ⟨some [2], 1, 1, 1⟩, ⟨some [2], 1, 1, 1⟩, ⟨some [4, 5, 6], 1, 1, 3⟩,
    ⟨some [7, 8, 9, 10], 1, 1, 4⟩]

/-- An example object in Orbiting: the example object with an engine set and
orbiting true, the reference position at (0, 0). -/
def orbitingExample : PathTracerPreview :=
  { setEngine (some ⟨1⟩) shownExample with orbiting := true }

/-- The exponent of the unit in the last place of a binary32 float near `x`: 23
below the binade of `x`, and -149 for the subnormal numbers. -/
def ulpExponent (x : ℚ) : Int :=
  max (Int.log 2 |x|) (-126) - 23

/-- The integer nearest to `y`, a tie going to the even one. -/
def roundTiesEven (y : ℚ) : Int :=
  if y - (⌊y⌋ : ℚ) < 1 / 2 then ⌊y⌋
  else if 1 / 2 < y - (⌊y⌋ : ℚ) then ⌊y⌋ + 1
  else if ⌊y⌋ % 2 = 0 then ⌊y⌋ else ⌊y⌋ + 1

/-- The binary32 float that an operation with exact result `x` yields: `x`
rounded to nearest, ties to even, with a 24-bit significand. Results beyond the
largest float (infinity in C++) are outside the embedding. -/
def roundFloat (x : ℚ) : ℚ :=
  (roundTiesEven (x / (2 : ℚ) ^ ulpExponent x) : ℚ) * (2 : ℚ) ^ ulpExponent x

/-- The float quotient `static_cast<float>(a) / t` of an `int` `a` by an `int`
`t` (source lines 295, 296, 325, 326): both are converted to float, then
divided. -/
def ratioFloat (a t : Int) : ℚ :=
  roundFloat (roundFloat (a : ℚ) / roundFloat (t : ℚ))

/-- The scale of lines 295-297 and 325-327 as the float operations compute it. -/
def fitScaleFloat (screenWidth screenHeight : Int) (texture : Texture2D) : ℚ :=
  let scaleX : ℚ := ratioFloat (screenWidth - 40) texture.width
  let scaleY : ℚ := ratioFloat (screenHeight - 40) texture.height
  if scaleX < scaleY then scaleX else scaleY

/-- One coordinate of the position of lines 359-360 as the float operations
compute it: `static_cast<float>(screen)/2 - size*imageScale/2`. -/
def originFloat (screen size : Int) (imageScale : ℚ) : ℚ :=
  roundFloat (roundFloat (roundFloat (screen : ℚ) / 2) -
    roundFloat (roundFloat (roundFloat (size : ℚ) * imageScale) / 2))

/-- The position handed to `DrawTextureEx` (source lines 358-361) as the float
operations compute it. -/
def drawPositionFloat (s : PathTracerPreview) : Vector2 :=
  ⟨originFloat s.screenWidth s.texture.width s.imageScale,
   originFloat s.screenHeight s.texture.height s.imageScale⟩

/-- The example of the specification: an 800x600 texture in a 1000x800 window,
with the scale as lines 295-297 compute it in float arithmetic. -/
def specExample : PathTracerPreview :=
  { PathTracerPreview.create 1000 800 with
    texture := ⟨1, 800, 600, 1, 7⟩
    imageLoaded := true
    imageScale := fitScaleFloat 1000 800 ⟨1, 800, 600, 1, 7⟩ }

/-! ## The frame queue -/

@[simp] theorem emit_imageQueue (s : PathTracerPreview) (e : Event) :
    (s.emit e).imageQueue = s.imageQueue := rfl

@[simp] theorem emit_trace (s : PathTracerPreview) (e : Event) :
    (s.emit e).trace = s.trace ++ [e] := rfl

theorem updateImage_imageQueue (env : Env) (data : Option (List Byte))
    (width height channels : Int) (s : PathTracerPreview) :
    (updateImage env data width height channels s).imageQueue = s.imageQueue := by
  unfold updateImage
  cases data with
  | none => rfl
  | some bytes =>
    by_cases ht : s.texture.id = 0 <;> by_cases hn : width * height * 4 < 0 <;>
      by_cases hl : env.loaded.id = 0 <;> simp [ht, hn, hl, PathTracerPreview.emit]

theorem processImageQueue_imageQueue (env : Env) (s : PathTracerPreview) :
    (processImageQueue env s).imageQueue = s.imageQueue.tail := by
  unfold processImageQueue takeFront
  cases h : s.imageQueue with
  | nil => simp [h]
  | cons front rest => simp [updateImage_imageQueue]

theorem drain_imageQueue (envs : Nat → Env) (k : Nat) (s : PathTracerPreview) :
    (drain envs k s).imageQueue = s.imageQueue.drop k := by
  induction k with
  | zero => simp [drain]
  | succ k ih =>
    simp only [drain, processImageQueue_imageQueue, ih]
    rw [List.tail_drop]

theorem queueImageData_valid (bytes : List Byte) (width height channels : Int)
    (s : PathTracerPreview) (hw : 0 < width) (hh : 0 < height) (hc : 0 < channels) :
    (queueImageData (some bytes) width height channels s).imageQueue =
      s.imageQueue ++
        [ImageData.mk (some (bytes.take (width * height * channels).toNat))
          width height channels] := by
  have h : ¬ (width ≤ 0 ∨ height ≤ 0 ∨ channels ≤ 0) := by omega
  simp [queueImageData, h]

theorem queueAll_imageQueue (calls : List ImageData) (s : PathTracerPreview)
    (hvalid : ∀ c ∈ calls, validCall c) :
    (queueAll calls s).imageQueue =
      s.imageQueue ++ calls.map (fun c =>
        ImageData.mk (c.data.map (List.take (c.width * c.height * c.channels).toNat))
          c.width c.height c.channels) := by
  induction calls generalizing s with
  | nil => simp [queueAll]
  | cons c rest ih =>
    have hc : validCall c := hvalid c (List.mem_cons_self _ _)
    have hrest : ∀ d ∈ rest, validCall d := fun d hd => hvalid d (List.mem_cons_of_mem _ hd)
    obtain ⟨hdata, hw, hh, hch⟩ := hc
    obtain ⟨bytes, hb⟩ := Option.ne_none_iff_exists'.mp hdata
    have step := ih (queueImageData c.data c.width c.height c.channels s) hrest
    simp only [queueAll, List.foldl_cons] at step ⊢
    rw [step, hb, queueImageData_valid bytes _ _ _ s hw hh hch]
    simp [hb]

theorem takeFront_cons (s : PathTracerPreview) (front : ImageData) (rest : List ImageData)
    (h : s.imageQueue = front :: rest) :
    (takeFront s).1 = front ∧ (takeFront s).2.1 = true := by
  simp [takeFront, h]

theorem takeFront_nil (env : Env) (s : PathTracerPreview) (h : s.imageQueue = []) :
    (takeFront s).2.1 = false ∧ processImageQueue env s = s := by
  simp [processImageQueue, takeFront, h]

/-- C1: after N valid calls of `queueImageData` on an empty queue, the k-th
dequeue of `processImageQueue` (k < N) has data and yields the unit of the k-th
call: its width, height and channels, and a non-null buffer holding the first
width*height*channels bytes passed in that call; the dequeue after the N-th
finds the queue empty, reports `hasData = false`, and that `processImageQueue`
call changes nothing: no upload and no other external call. -/
theorem queue_is_fifo (s : PathTracerPreview) (calls : List ImageData) (envs : Nat → Env)
    (hempty : s.imageQueue = []) (hvalid : ∀ c ∈ calls, validCall c) :
    (∀ (k : Nat) (hk : k < calls.length),
      (takeFront (drain envs k (queueAll calls s))).2.1 = true ∧
      (takeFront (drain envs k (queueAll calls s))).1 =
        ImageData.mk
          ((calls.get ⟨k, hk⟩).data.map
            (List.take ((calls.get ⟨k, hk⟩).width * (calls.get ⟨k, hk⟩).height *
              (calls.get ⟨k, hk⟩).channels).toNat))
          (calls.get ⟨k, hk⟩).width (calls.get ⟨k, hk⟩).height (calls.get ⟨k, hk⟩).channels ∧
      (takeFront (drain envs k (queueAll calls s))).1.data ≠ none) ∧
    (takeFront (drain envs calls.length (queueAll calls s))).2.1 = false ∧
    processImageQueue (envs calls.length) (drain envs calls.length (queueAll calls s)) =
      drain envs calls.length (queueAll calls s) := by
  have hq := queueAll_imageQueue calls s hvalid
  rw [hempty, List.nil_append] at hq
  refine ⟨?_, ?_⟩
  · intro k hk
    have hd := drain_imageQueue envs k (queueAll calls s)
    rw [hq] at hd
    have hlen : k < (calls.map (fun c =>
        ImageData.mk (c.data.map (List.take (c.width * c.height * c.channels).toNat))
          c.width c.height c.channels)).length := by simpa using hk
    rw [List.drop_eq_getElem_cons hlen] at hd
    obtain ⟨h1, h2⟩ := takeFront_cons _ _ _ hd
    refine ⟨h2, ?_, ?_⟩
    · rw [h1]; simp
    · rw [h1]
      have hv := (hvalid (calls.get ⟨k, hk⟩) (List.get_mem _ _ _)).1
      obtain ⟨bytes, hb⟩ := Option.ne_none_iff_exists'.mp hv
      simp at hb
      simp [hb]
  · have hd := drain_imageQueue envs calls.length (queueAll calls s)
    rw [hq] at hd
    have : List.drop calls.length (calls.map (fun c =>
        ImageData.mk (c.data.map (List.take (c.width * c.height * c.channels).toNat))
          c.width c.height c.channels)) = [] := by
      apply List.drop_eq_nil_of_le; simp
    rw [this] at hd
    exact takeFront_nil _ _ hd

/-- Witness for C1: two calls, the second passing more bytes than its size; the
second dequeue yields the second unit with only its first byte. -/
theorem queue_is_fifo_witness :
    (takeFront (drain (fun _ => ⟨fun _ => 0, ⟨1, 1, 1, 1, 7⟩⟩) 1
      (queueAll [⟨some [1, 2, 3], 1, 1, 3⟩, ⟨some [9, 8], 1, 1, 1⟩]
        (PathTracerPreview.create 400 400)))).1 = ⟨some [9], 1, 1, 1⟩ := by
  have h := (queue_is_fifo (PathTracerPreview.create 400 400)
    [⟨some [1, 2, 3], 1, 1, 3⟩, ⟨some [9, 8], 1, 1, 1⟩]
    (fun _ => ⟨fun _ => 0, ⟨1, 1, 1, 1, 7⟩⟩) rfl
    (by intro c hc; simp at hc; rcases hc with rfl | rfl <;> simp [validCall])).1 1 (by decide)
  simpa using h.2.1

/-- C2 (counterexample): a call with non-null data, width 1, height 1 and 5
channels, a channel count outside 1..4, makes the empty queue one longer. -/
theorem queue_accepts_five_channels :
    ¬ ((5 : Int) = 1 ∨ (5 : Int) = 2 ∨ (5 : Int) = 3 ∨ (5 : Int) = 4) ∧
    (PathTracerPreview.create 400 400).imageQueue.length = 0 ∧
    (queueImageData (some [1, 2, 3, 4, 5]) 1 1 5
      (PathTracerPreview.create 400 400)).imageQueue.length = 1 := by
  refine ⟨by decide, rfl, ?_⟩
  simp [queueImageData, PathTracerPreview.create]

/-- C2 (amended): a call of `queueImageData` with a null data pointer, or width
<= 0, or height <= 0, or channels <= 0, leaves the queue, and so its length,
unchanged, in every queue state. -/
theorem queue_rejects_invalid (s : PathTracerPreview) (data : Option (List Byte))
    (width height channels : Int)
    (hbad : data = none ∨ width ≤ 0 ∨ height ≤ 0 ∨ channels ≤ 0) :
    (queueImageData data width height channels s).imageQueue = s.imageQueue ∧
    (queueImageData data width height channels s).imageQueue.length =
      s.imageQueue.length := by
  have h : (queueImageData data width height channels s).imageQueue = s.imageQueue := by
    cases data with
    | none => rfl
    | some bytes =>
      have h' : width ≤ 0 ∨ height ≤ 0 ∨ channels ≤ 0 := by
        rcases hbad with h0 | h0
        · exact absurd h0 (by simp)
        · exact h0
      simp [queueImageData, h']
  exact ⟨h, by rw [h]⟩

/-- Witness for C2 (amended): a zero-width call on a queue holding one unit. -/
theorem queue_rejects_invalid_witness :
    (queueImageData (some [1, 2, 3]) 0 1 3
      (queueImageData (some [7]) 1 1 1 (PathTracerPreview.create 400 400))).imageQueue.length =
    (queueImageData (some [7]) 1 1 1 (PathTracerPreview.create 400 400)).imageQueue.length :=
  (queue_rejects_invalid _ (some [1, 2, 3]) 0 1 3 (Or.inr (Or.inl (le_refl 0)))).2

/-! ## The conversion to RGBA -/

theorem convertPixel_length (data : List Byte) (channels : Int) (buf : List Byte) (i : Nat) :
    (convertPixel data channels buf i).length = buf.length := by
  unfold convertPixel
  split_ifs <;> simp

theorem convertPixel_frame (data : List Byte) (channels : Int) (buf : List Byte) (i j : Nat)
    (hj : j < 4 * i ∨ 4 * i + 4 ≤ j) :
    (convertPixel data channels buf i)[j]? = buf[j]? := by
  unfold convertPixel
  split_ifs <;> simp only [List.getElem?_set] <;>
    (repeat (first | rw [if_neg (by omega)] | rfl))

/-- The conversion loop run for the pixels below `n`. -/
theorem convertLoop_length (data : List Byte) (channels : Int) (buf : List Byte) (n : Nat) :
    ((List.range n).foldl (convertPixel data channels) buf).length = buf.length := by
  induction n with
  | zero => simp
  | succ n ih => rw [List.range_succ, List.foldl_append]; simp [convertPixel_length, ih]

theorem convertLoop_stable (data : List Byte) (channels : Int) (buf : List Byte)
    (i n j : Nat) (hin : i < n) (hj : j < 4 * i + 4) (hj' : 4 * i ≤ j) :
    ((List.range n).foldl (convertPixel data channels) buf)[j]? =
      (convertPixel data channels
        ((List.range i).foldl (convertPixel data channels) buf) i)[j]? := by
  induction n with
  | zero => omega
  | succ n ih =>
    rw [List.range_succ, List.foldl_append]
    simp only [List.foldl_cons, List.foldl_nil]
    by_cases h : i = n
    · subst h; rfl
    · rw [convertPixel_frame _ _ _ _ _ (by omega)]
      exact ih (by omega)

theorem convertPixel_colour (data : List Byte) (channels : Int) (buf : List Byte) (i : Nat)
    (hc : 3 ≤ channels) (hlen : 4 * i + 4 ≤ buf.length) :
    (convertPixel data channels buf i)[4 * i]? = some (readByte data ((i : Int) * channels)) ∧
    (convertPixel data channels buf i)[4 * i + 1]? =
      some (readByte data ((i : Int) * channels + 1)) ∧
    (convertPixel data channels buf i)[4 * i + 2]? =
      some (readByte data ((i : Int) * channels + 2)) ∧
    (convertPixel data channels buf i)[4 * i + 3]? =
      some (if channels ≥ 4 then readByte data ((i : Int) * channels + 3) else 255) := by
  have h3 : channels ≥ 3 := hc
  have e : i * 4 = 4 * i := Nat.mul_comm _ _
  simp only [convertPixel, if_pos h3, e, List.getElem?_set, List.length_set]
  refine ⟨?_, ?_, ?_, ?_⟩ <;>
    (repeat (first | rfl | rw [if_pos (by first | trivial | omega)] | rw [if_neg (by omega)]))

theorem convertPixel_gray (data : List Byte) (buf : List Byte) (i : Nat)
    (hlen : 4 * i + 4 ≤ buf.length) :
    (convertPixel data 1 buf i)[4 * i]? = some (readByte data (i : Int)) ∧
    (convertPixel data 1 buf i)[4 * i + 1]? = some (readByte data (i : Int)) ∧
    (convertPixel data 1 buf i)[4 * i + 2]? = some (readByte data (i : Int)) ∧
    (convertPixel data 1 buf i)[4 * i + 3]? = some 255 := by
  have h3 : ¬ ((1 : Int) ≥ 3) := by decide
  have e : i * 4 = 4 * i := Nat.mul_comm _ _
  simp only [convertPixel, if_neg h3, if_true, e, List.getElem?_set, List.length_set, mul_one]
  refine ⟨?_, ?_, ?_, ?_⟩ <;>
    (repeat (first | rfl | rw [if_pos (by first | trivial | omega)] | rw [if_neg (by omega)]))

theorem convertToRGBA_length (fresh : Nat → Byte) (data : List Byte)
    (width height channels : Int) :
    (convertToRGBA fresh data width height channels).length = (width * height * 4).toNat := by
  simp [convertToRGBA, convertLoop_length]

/-- Pixel `i` of the converted buffer is what iteration `i` of the loop wrote. -/
theorem convertToRGBA_pixel (fresh : Nat → Byte) (data : List Byte)
    (width height channels : Int) (i j : Nat) (hi : i < (width * height).toNat)
    (hj : j < 4 * i + 4) (hj' : 4 * i ≤ j) :
    (convertToRGBA fresh data width height channels)[j]? =
      (convertPixel data channels
        ((List.range i).foldl (convertPixel data channels)
          ((List.range (width * height * 4).toNat).map fresh)) i)[j]? := by
  unfold convertToRGBA
  exact convertLoop_stable _ _ _ _ _ _ hi hj hj'

theorem readByte_eq (data : List Byte) (k : Nat) (idx : Int) (hidx : idx = (k : Int))
    (hk : k < data.length) : some (readByte data idx) = data[k]? := by
  subst hidx
  simp [readByte, List.getD_eq_getElem?_getD, List.getElem?_eq_getElem hk]

theorem updateImage_uploads (env : Env) (bytes : List Byte) (width height channels : Int)
    (s : PathTracerPreview) (hsize : 0 ≤ width * height * 4) :
    uploads (updateImage env (some bytes) width height channels s).trace =
      uploads s.trace ++
        [⟨convertToRGBA env.fresh bytes width height channels, width, height, 1,
          PIXELFORMAT_UNCOMPRESSED_R8G8B8A8⟩] := by
  have hn : ¬ (width * height * 4 < 0) := by omega
  unfold updateImage
  by_cases ht : s.texture.id = 0 <;> by_cases hl : env.loaded.id = 0 <;>
    simp [ht, hn, hl, PathTracerPreview.emit, uploads, List.filterMap_append]

theorem pixelCount_pos (W H : Int) (hW : 1 ≤ W) (hH : 1 ≤ H) : 1 ≤ W * H := by
  nlinarith

/-- C3: for W, H >= 1 and a 4-channel source of W*H*4 bytes, the RGBA buffer
that `updateImage` builds equals the source byte for byte, has length W*H*4, and
is the pixel data of the one image the call hands to `LoadTextureFromImage`. -/
theorem rgba_four_channels_copied (env : Env) (s : PathTracerPreview) (W H : Int)
    (src : List Byte) (hW : 1 ≤ W) (hH : 1 ≤ H) (hlen : (src.length : Int) = W * H * 4) :
    convertToRGBA env.fresh src W H 4 = src ∧
    ((convertToRGBA env.fresh src W H 4).length : Int) = W * H * 4 ∧
    uploads (updateImage env (some src) W H 4 s).trace =
      uploads s.trace ++ [⟨src, W, H, 1, PIXELFORMAT_UNCOMPRESSED_R8G8B8A8⟩] := by
  have hpos := pixelCount_pos W H hW hH
  have hL := convertToRGBA_length env.fresh src W H 4
  have heq : convertToRGBA env.fresh src W H 4 = src := by
    apply List.ext_getElem?
    intro j
    by_cases hj : j < src.length
    · obtain ⟨i, k, hk, hjk⟩ : ∃ i k, k < 4 ∧ j = 4 * i + k :=
        ⟨j / 4, j % 4, Nat.mod_lt _ (by decide), by omega⟩
      have hi : i < (W * H).toNat := by omega
      rw [convertToRGBA_pixel env.fresh src W H 4 i j hi (by omega) (by omega)]
      have hbuf : 4 * i + 4 ≤ ((List.range i).foldl (convertPixel src 4)
          ((List.range (W * H * 4).toNat).map env.fresh)).length := by
        rw [convertLoop_length]; simp; omega
      obtain ⟨p0, p1, p2, p3⟩ := convertPixel_colour src 4 _ i (by decide) hbuf
      have h4 : (4 : Int) ≥ 4 := by decide
      rw [if_pos h4] at p3
      subst hjk
      interval_cases k
      · rw [Nat.add_zero] at hj ⊢
        rw [p0]; exact readByte_eq src (4 * i) _ (by push_cast; ring) hj
      · rw [p1]; exact readByte_eq src (4 * i + 1) _ (by push_cast; ring) hj
      · rw [p2]; exact readByte_eq src (4 * i + 2) _ (by push_cast; ring) hj
      · rw [p3]; exact readByte_eq src (4 * i + 3) _ (by push_cast; ring) hj
    · rw [List.getElem?_eq_none (by omega), List.getElem?_eq_none (by omega)]
  refine ⟨heq, by rw [heq]; exact hlen, ?_⟩
  rw [updateImage_uploads env src W H 4 s (by omega), heq]

/-- Witness for C3: a 1x2 frame of four channels. -/
theorem rgba_four_channels_copied_witness :
    convertToRGBA (fun _ => 0) [1, 2, 3, 4, 5, 6, 7, 8] 1 2 4 = [1, 2, 3, 4, 5, 6, 7, 8] :=
  (rgba_four_channels_copied ⟨fun _ => 0, zeroTexture⟩ (PathTracerPreview.create 400 400) 1 2
    [1, 2, 3, 4, 5, 6, 7, 8] (by decide) (by decide) (by decide)).1

/-- C4: for W, H >= 1 and a 3-channel source of W*H*3 bytes, the RGBA buffer
that `updateImage` builds has length W*H*4, and for every pixel i < W*H its
bytes 4i, 4i+1, 4i+2 are the source bytes 3i, 3i+1, 3i+2 and its byte 4i+3 is
255; it is the pixel data of the one image the call hands to
`LoadTextureFromImage`. -/
theorem rgba_three_channels_alpha (env : Env) (s : PathTracerPreview) (W H : Int)
    (src : List Byte) (hW : 1 ≤ W) (hH : 1 ≤ H) (hlen : (src.length : Int) = W * H * 3) :
    ((convertToRGBA env.fresh src W H 3).length : Int) = W * H * 4 ∧
    (∀ i : Nat, (i : Int) < W * H →
      (∃ r g b : Byte, src[3 * i]? = some r ∧ src[3 * i + 1]? = some g ∧
        src[3 * i + 2]? = some b ∧
        (convertToRGBA env.fresh src W H 3)[4 * i]? = some r ∧
        (convertToRGBA env.fresh src W H 3)[4 * i + 1]? = some g ∧
        (convertToRGBA env.fresh src W H 3)[4 * i + 2]? = some b ∧
        (convertToRGBA env.fresh src W H 3)[4 * i + 3]? = some 255)) ∧
    uploads (updateImage env (some src) W H 3 s).trace =
      uploads s.trace ++
        [⟨convertToRGBA env.fresh src W H 3, W, H, 1, PIXELFORMAT_UNCOMPRESSED_R8G8B8A8⟩] := by
  have hpos := pixelCount_pos W H hW hH
  have hL := convertToRGBA_length env.fresh src W H 3
  refine ⟨by omega, ?_, updateImage_uploads env src W H 3 s (by omega)⟩
  intro i hi
  have hi' : i < (W * H).toNat := by omega
  have hbuf : 4 * i + 4 ≤ ((List.range i).foldl (convertPixel src 3)
      ((List.range (W * H * 4).toNat).map env.fresh)).length := by
    rw [convertLoop_length]; simp; omega
  obtain ⟨p0, p1, p2, p3⟩ := convertPixel_colour src 3 _ i (by decide) hbuf
  have h4 : ¬ ((3 : Int) ≥ 4) := by decide
  rw [if_neg h4] at p3
  have s0 : 3 * i < src.length := by omega
  have s1 : 3 * i + 1 < src.length := by omega
  have s2 : 3 * i + 2 < src.length := by omega
  refine ⟨src[3 * i], src[3 * i + 1], src[3 * i + 2], List.getElem?_eq_getElem s0,
    List.getElem?_eq_getElem s1, List.getElem?_eq_getElem s2, ?_, ?_, ?_, ?_⟩
  · rw [convertToRGBA_pixel env.fresh src W H 3 i _ hi' (by omega) (by omega), p0,
      readByte_eq src (3 * i) _ (by push_cast; ring) s0, List.getElem?_eq_getElem s0]
  · rw [convertToRGBA_pixel env.fresh src W H 3 i _ hi' (by omega) (by omega), p1,
      readByte_eq src (3 * i + 1) _ (by push_cast; ring) s1, List.getElem?_eq_getElem s1]
  · rw [convertToRGBA_pixel env.fresh src W H 3 i _ hi' (by omega) (by omega), p2,
      readByte_eq src (3 * i + 2) _ (by push_cast; ring) s2, List.getElem?_eq_getElem s2]
  · rw [convertToRGBA_pixel env.fresh src W H 3 i _ hi' (by omega) (by omega), p3]

/-- Witness for C4: a 2x1 frame of three channels. -/
theorem rgba_three_channels_alpha_witness :
    ((convertToRGBA (fun _ => 0) [1, 2, 3, 4, 5, 6] 2 1 3).length : Int) = 2 * 1 * 4 :=
  (rgba_three_channels_alpha ⟨fun _ => 0, zeroTexture⟩ (PathTracerPreview.create 400 400) 2 1
    [1, 2, 3, 4, 5, 6] (by decide) (by decide) (by decide)).1

/-- C5: for W, H >= 1 and a 1-channel source of W*H bytes, in the RGBA buffer
that `updateImage` builds every pixel i < W*H has bytes 4i, 4i+1 and 4i+2 equal
to source byte i and byte 4i+3 equal to 255; the buffer is the pixel data of the
one image the call hands to `LoadTextureFromImage`. -/
theorem rgba_gray_broadcast (env : Env) (s : PathTracerPreview) (W H : Int)
    (src : List Byte) (hW : 1 ≤ W) (hH : 1 ≤ H) (hlen : (src.length : Int) = W * H) :
    (∀ i : Nat, (i : Int) < W * H →
      (∃ v : Byte, src[i]? = some v ∧
        (convertToRGBA env.fresh src W H 1)[4 * i]? = some v ∧
        (convertToRGBA env.fresh src W H 1)[4 * i + 1]? = some v ∧
        (convertToRGBA env.fresh src W H 1)[4 * i + 2]? = some v ∧
        (convertToRGBA env.fresh src W H 1)[4 * i + 3]? = some 255)) ∧
    uploads (updateImage env (some src) W H 1 s).trace =
      uploads s.trace ++
        [⟨convertToRGBA env.fresh src W H 1, W, H, 1, PIXELFORMAT_UNCOMPRESSED_R8G8B8A8⟩] := by
  have hpos := pixelCount_pos W H hW hH
  refine ⟨?_, updateImage_uploads env src W H 1 s (by omega)⟩
  intro i hi
  have hi' : i < (W * H).toNat := by omega
  have hbuf : 4 * i + 4 ≤ ((List.range i).foldl (convertPixel src 1)
      ((List.range (W * H * 4).toNat).map env.fresh)).length := by
    rw [convertLoop_length]; simp; omega
  obtain ⟨p0, p1, p2, p3⟩ := convertPixel_gray src _ i hbuf
  have s0 : i < src.length := by omega
  have hr : some (readByte src (i : Int)) = some src[i] := by
    rw [readByte_eq src i _ rfl s0, List.getElem?_eq_getElem s0]
  refine ⟨src[i], List.getElem?_eq_getElem s0, ?_, ?_, ?_, ?_⟩
  · rw [convertToRGBA_pixel env.fresh src W H 1 i _ hi' (by omega) (by omega), p0, hr]
  · rw [convertToRGBA_pixel env.fresh src W H 1 i _ hi' (by omega) (by omega), p1, hr]
  · rw [convertToRGBA_pixel env.fresh src W H 1 i _ hi' (by omega) (by omega), p2, hr]
  · rw [convertToRGBA_pixel env.fresh src W H 1 i _ hi' (by omega) (by omega), p3]

/-- Witness for C5: a 1x2 grayscale frame; pixel 1 is shown. -/
theorem rgba_gray_broadcast_witness :
    ∃ v : Byte, ([10, 20] : List Byte)[1]? = some v ∧
      (convertToRGBA (fun _ => 0) [10, 20] 1 2 1)[4 * 1]? = some v ∧
      (convertToRGBA (fun _ => 0) [10, 20] 1 2 1)[4 * 1 + 1]? = some v ∧
      (convertToRGBA (fun _ => 0) [10, 20] 1 2 1)[4 * 1 + 2]? = some v ∧
      (convertToRGBA (fun _ => 0) [10, 20] 1 2 1)[4 * 1 + 3]? = some 255 :=
  (rgba_gray_broadcast ⟨fun _ => 0, zeroTexture⟩ (PathTracerPreview.create 400 400) 1 2
    [10, 20] (by decide) (by decide) (by decide)).1 1 (by decide)

/-! ## The upload -/

/-- The object after an `updateImage` call that reaches the texture creation. -/
theorem updateImage_state (env : Env) (bytes : List Byte) (width height channels : Int)
    (s : PathTracerPreview) (hsize : 0 ≤ width * height * 4) :
    (updateImage env (some bytes) width height channels s).texture = env.loaded ∧
    (updateImage env (some bytes) width height channels s).screenWidth = s.screenWidth ∧
    (updateImage env (some bytes) width height channels s).screenHeight = s.screenHeight ∧
    (env.loaded.id ≠ 0 →
      (updateImage env (some bytes) width height channels s).imageLoaded = true ∧
      (updateImage env (some bytes) width height channels s).imageScale =
        fitScale s.screenWidth s.screenHeight env.loaded) ∧
    (env.loaded.id = 0 →
      (updateImage env (some bytes) width height channels s).imageLoaded = s.imageLoaded ∧
      (updateImage env (some bytes) width height channels s).imageScale = s.imageScale) := by
  have hn : ¬ (width * height * 4 < 0) := by omega
  unfold updateImage
  by_cases ht : s.texture.id = 0 <;> by_cases hl : env.loaded.id = 0 <;>
    simp [ht, hn, hl, PathTracerPreview.emit]

/-- The external calls of an `updateImage` call that reaches the texture
creation while a texture is held. -/
theorem updateImage_trace_held (env : Env) (bytes : List Byte) (width height channels : Int)
    (s : PathTracerPreview) (hsize : 0 ≤ width * height * 4) (hheld : s.texture.id ≠ 0) :
    (updateImage env (some bytes) width height channels s).trace =
      s.trace ++
        ([Event.UnloadTexture s.texture,
          Event.LoadTextureFromImage
            ⟨convertToRGBA env.fresh bytes width height channels, width, height, 1,
              PIXELFORMAT_UNCOMPRESSED_R8G8B8A8⟩,
          Event.UnloadImage
            ⟨convertToRGBA env.fresh bytes width height channels, width, height, 1,
              PIXELFORMAT_UNCOMPRESSED_R8G8B8A8⟩] ++
          if env.loaded.id = 0 then [Event.cerr "ERROR: Failed to create texture"] else []) := by
  have hn : ¬ (width * height * 4 < 0) := by omega
  unfold updateImage
  by_cases hl : env.loaded.id = 0 <;> simp [hheld, hn, hl, PathTracerPreview.emit]

/-- C6 (counterexample): `updateImage` with non-null data and 5 channels, on an
object showing texture 7, is not rejected: it hands an image to
`LoadTextureFromImage`, unloads texture 7, and the new texture 9 becomes the
current one. -/
theorem five_channels_not_rejected :
    uploads shownExample.trace = [] ∧
    uploads (updateImage uploadWorks (some [1, 2, 3, 4, 5]) 1 1 5 shownExample).trace =
      [⟨[1, 2, 3, 4], 1, 1, 1, PIXELFORMAT_UNCOMPRESSED_R8G8B8A8⟩] ∧
    shownExample.texture.id = 7 ∧
    (updateImage uploadWorks (some [1, 2, 3, 4, 5]) 1 1 5 shownExample).texture.id = 9 ∧
    Event.UnloadTexture shownExample.texture ∈
      (updateImage uploadWorks (some [1, 2, 3, 4, 5]) 1 1 5 shownExample).trace := by
  refine ⟨by decide, by decide, by decide, by decide, by decide⟩

/-- C6 (amended): `updateImage` with non-null data and 5 or more channels (W, H
>= 1, a source of W*H*channels bytes) is not an error: it converts the frame as
it does a 4-channel one, copying bytes 0..3 of every source pixel, hands that
W*H*4 buffer to `LoadTextureFromImage`, unloads the texture held before, and
makes the returned texture the current one; when its id is not 0 the loaded flag
is set and the scale is refitted to the window. -/
theorem many_channels_uploaded (env : Env) (s : PathTracerPreview) (W H : Int) (c : Nat)
    (src : List Byte) (hW : 1 ≤ W) (hH : 1 ≤ H) (hc : 5 ≤ c)
    (hlen : (src.length : Int) = W * H * (c : Int)) :
    ((convertToRGBA env.fresh src W H (c : Int)).length : Int) = W * H * 4 ∧
    (∀ i : Nat, (i : Int) < W * H →
      (∃ r g b a : Byte, src[i * c]? = some r ∧ src[i * c + 1]? = some g ∧
        src[i * c + 2]? = some b ∧ src[i * c + 3]? = some a ∧
        (convertToRGBA env.fresh src W H (c : Int))[4 * i]? = some r ∧
        (convertToRGBA env.fresh src W H (c : Int))[4 * i + 1]? = some g ∧
        (convertToRGBA env.fresh src W H (c : Int))[4 * i + 2]? = some b ∧
        (convertToRGBA env.fresh src W H (c : Int))[4 * i + 3]? = some a)) ∧
    uploads (updateImage env (some src) W H (c : Int) s).trace =
      uploads s.trace ++
        [⟨convertToRGBA env.fresh src W H (c : Int), W, H, 1,
          PIXELFORMAT_UNCOMPRESSED_R8G8B8A8⟩] ∧
    (s.texture.id ≠ 0 →
      Event.UnloadTexture s.texture ∈ (updateImage env (some src) W H (c : Int) s).trace) ∧
    (updateImage env (some src) W H (c : Int) s).texture = env.loaded ∧
    (env.loaded.id ≠ 0 →
      (updateImage env (some src) W H (c : Int) s).imageLoaded = true ∧
      (updateImage env (some src) W H (c : Int) s).imageScale =
        fitScale s.screenWidth s.screenHeight env.loaded) := by
  have hpos := pixelCount_pos W H hW hH
  have hL := convertToRGBA_length env.fresh src W H (c : Int)
  have hst := updateImage_state env src W H (c : Int) s (by omega)
  refine ⟨by omega, ?_, updateImage_uploads env src W H (c : Int) s (by omega), ?_,
    hst.1, hst.2.2.2.1⟩
  · intro i hi
    have hi' : i < (W * H).toNat := by omega
    have hN : ((W * H).toNat : Int) = W * H := Int.toNat_of_nonneg (by omega)
    have hlenN : src.length = (W * H).toNat * c := by
      have : (src.length : Int) = (((W * H).toNat * c : Nat) : Int) := by
        push_cast; rw [hN]; exact hlen
      exact_mod_cast this
    have hmul : (i + 1) * c ≤ (W * H).toNat * c := Nat.mul_le_mul_right c (by omega)
    rw [Nat.add_mul, Nat.one_mul] at hmul
    have hbuf : 4 * i + 4 ≤ ((List.range i).foldl (convertPixel src (c : Int))
        ((List.range (W * H * 4).toNat).map env.fresh)).length := by
      rw [convertLoop_length]; simp; omega
    obtain ⟨p0, p1, p2, p3⟩ := convertPixel_colour src (c : Int) _ i (by omega) hbuf
    have h4 : (c : Int) ≥ 4 := by omega
    rw [if_pos h4] at p3
    have s0 : i * c < src.length := by omega
    have s1 : i * c + 1 < src.length := by omega
    have s2 : i * c + 2 < src.length := by omega
    have s3 : i * c + 3 < src.length := by omega
    refine ⟨src[i * c], src[i * c + 1], src[i * c + 2], src[i * c + 3],
      List.getElem?_eq_getElem s0, List.getElem?_eq_getElem s1, List.getElem?_eq_getElem s2,
      List.getElem?_eq_getElem s3, ?_, ?_, ?_, ?_⟩
    · rw [convertToRGBA_pixel env.fresh src W H (c : Int) i _ hi' (by omega) (by omega), p0,
        readByte_eq src (i * c) _ (by push_cast; ring) s0, List.getElem?_eq_getElem s0]
    · rw [convertToRGBA_pixel env.fresh src W H (c : Int) i _ hi' (by omega) (by omega), p1,
        readByte_eq src (i * c + 1) _ (by push_cast; ring) s1, List.getElem?_eq_getElem s1]
    · rw [convertToRGBA_pixel env.fresh src W H (c : Int) i _ hi' (by omega) (by omega), p2,
        readByte_eq src (i * c + 2) _ (by push_cast; ring) s2, List.getElem?_eq_getElem s2]
    · rw [convertToRGBA_pixel env.fresh src W H (c : Int) i _ hi' (by omega) (by omega), p3,
        readByte_eq src (i * c + 3) _ (by push_cast; ring) s3, List.getElem?_eq_getElem s3]
  · intro hheld
    rw [updateImage_trace_held env src W H (c : Int) s (by omega) hheld]
    simp

/-- Witness for C6 (amended): a 1x1 frame of 5 channels on the example object. -/
theorem many_channels_uploaded_witness :
    (updateImage uploadWorks (some [1, 2, 3, 4, 5]) 1 1 ((5 : Nat) : Int) shownExample).texture =
      uploadWorks.loaded :=
  (many_channels_uploaded uploadWorks shownExample 1 1 5 [1, 2, 3, 4, 5] (by decide) (by decide)
    (by decide) (by decide)).2.2.2.2.1

/-- C7 (counterexample): on an object showing texture 7, an `updateImage` call
whose texture creation fails unloads texture 7 and leaves texture id 0; the next
draw presents the waiting text, not texture 7. -/
theorem failed_upload_drops_texture :
    shownExample.texture.id = 7 ∧
    presented shownExample =
      Event.DrawTextureEx shownExample.texture (drawPosition shownExample) 0
        shownExample.imageScale ∧
    uploadFails.loaded.id = 0 ∧
    (updateImage uploadFails (some [1, 2, 3, 4]) 1 1 4 shownExample).texture.id = 0 ∧
    Event.UnloadTexture shownExample.texture ∈
      (updateImage uploadFails (some [1, 2, 3, 4]) 1 1 4 shownExample).trace ∧
    presented (updateImage uploadFails (some [1, 2, 3, 4]) 1 1 4 shownExample) =
      Event.DrawText "Waiting for Bella to render..." 50 190 20 := by
  refine ⟨by decide, ?_, by decide, by decide, by decide, ?_⟩
  · simp [presented, shownExample, PathTracerPreview.create]
  · simp [presented, updateImage, shownExample, uploadFails, PathTracerPreview.create,
      PathTracerPreview.emit, zeroTexture]
    decide

/-- C7 (amended): when a texture is held and `updateImage` is called with a frame
(non-null data, non-negative size) for which `LoadTextureFromImage` returns id
0, the call unloads the held texture, attempts the creation and logs the
failure; afterwards the current texture is the returned one with id 0, the
loaded flag and the scale keep their values, and the next draw presents the
waiting text. -/
theorem failed_upload_state (env : Env) (s : PathTracerPreview) (bytes : List Byte)
    (width height channels : Int) (hheld : s.texture.id ≠ 0)
    (hsize : 0 ≤ width * height * 4) (hfail : env.loaded.id = 0) :
    (updateImage env (some bytes) width height channels s).trace =
      s.trace ++
        [Event.UnloadTexture s.texture,
          Event.LoadTextureFromImage
            ⟨convertToRGBA env.fresh bytes width height channels, width, height, 1,
              PIXELFORMAT_UNCOMPRESSED_R8G8B8A8⟩,
          Event.UnloadImage
            ⟨convertToRGBA env.fresh bytes width height channels, width, height, 1,
              PIXELFORMAT_UNCOMPRESSED_R8G8B8A8⟩,
          Event.cerr "ERROR: Failed to create texture"] ∧
    (updateImage env (some bytes) width height channels s).texture = env.loaded ∧
    (updateImage env (some bytes) width height channels s).texture.id = 0 ∧
    (updateImage env (some bytes) width height channels s).imageLoaded = s.imageLoaded ∧
    (updateImage env (some bytes) width height channels s).imageScale = s.imageScale ∧
    presented (updateImage env (some bytes) width height channels s) =
      Event.DrawText "Waiting for Bella to render..."
        (Int.tdiv s.screenWidth 2 - 150) (Int.tdiv s.screenHeight 2 - 10) 20 := by
  have hst := updateImage_state env bytes width height channels s hsize
  have htr := updateImage_trace_held env bytes width height channels s hsize hheld
  rw [if_pos hfail] at htr
  have hid : (updateImage env (some bytes) width height channels s).texture.id = 0 := by
    rw [hst.1]; exact hfail
  refine ⟨by simpa using htr, hst.1, hid, (hst.2.2.2.2 hfail).1, (hst.2.2.2.2 hfail).2, ?_⟩
  simp [presented, hid, hst.2.1, hst.2.2.1]

/-- Witness for C7 (amended): the example object and a failing creation. -/
theorem failed_upload_state_witness :
    (updateImage uploadFails (some [1, 2, 3, 4]) 1 1 4 shownExample).imageLoaded =
      shownExample.imageLoaded :=
  (failed_upload_state uploadFails shownExample [1, 2, 3, 4] 1 1 4 (by decide) (by decide)
    (by decide)).2.2.2.1

/-! ## The fit-to-window scale -/

theorem fitScale_eq_min (w h : Int) (t : Texture2D) :
    fitScale w h t =
      min (((w : ℚ) - 40) / (t.width : ℚ)) (((h : ℚ) - 40) / (t.height : ℚ)) := by
  unfold fitScale
  push_cast
  by_cases hlt : ((w : ℚ) - 40) / (t.width : ℚ) < ((h : ℚ) - 40) / (t.height : ℚ)
  · simp only [if_pos hlt]; exact (min_eq_left (le_of_lt hlt)).symm
  · simp only [if_neg hlt]; exact (min_eq_right (not_lt.mp hlt)).symm

/-- C8: for a texture of size tw x th (tw, th >= 1) and a window of size w x h,
the scale stored by an `updateImage` call whose texture creation succeeds, and
the scale stored by the resize branch of `run` while a texture is loaded, both
equal min((w - 40) / tw, (h - 40) / th) over the rationals; a texture 800x600 in
a window 1000x800 gives 6/5. -/
theorem scale_is_min_ratio (tw th w h : Int) (htw : 1 ≤ tw) (hth : 1 ≤ th) :
    (∀ (env : Env) (s : PathTracerPreview) (bytes : List Byte) (width height channels : Int),
      s.screenWidth = w → s.screenHeight = h → 0 ≤ width * height * 4 →
      env.loaded.id ≠ 0 → env.loaded.width = tw → env.loaded.height = th →
      (updateImage env (some bytes) width height channels s).imageScale =
        min (((w : ℚ) - 40) / (tw : ℚ)) (((h : ℚ) - 40) / (th : ℚ))) ∧
    (∀ (s : PathTracerPreview),
      s.imageLoaded = true → s.texture.id ≠ 0 → s.texture.width = tw → s.texture.height = th →
      (resizeStep true w h s).imageScale =
        min (((w : ℚ) - 40) / (tw : ℚ)) (((h : ℚ) - 40) / (th : ℚ)) ∧
      (resizeStep true w h s).screenWidth = w ∧ (resizeStep true w h s).screenHeight = h) ∧
    (∀ (id : Nat) (mipmaps format : Int),
      fitScale 1000 800 ⟨id, 800, 600, mipmaps, format⟩ = 6 / 5) := by
  have _ := htw
  have _ := hth
  refine ⟨?_, ?_, ?_⟩
  · intro env s bytes width height channels hw hh hsize hok hwid hhei
    rw [((updateImage_state env bytes width height channels s hsize).2.2.2.1 hok).2,
      fitScale_eq_min, hw, hh, hwid, hhei]
  · intro s hl hid hwid hhei
    have hcond : s.imageLoaded = true ∧ s.texture.id ≠ 0 := ⟨hl, hid⟩
    simp [resizeStep, hl, hid, fitScale_eq_min, hwid, hhei]
  · intro id mipmaps format
    rw [fitScale_eq_min]
    norm_num

/-- Witness for C8: a successful upload of a 1x1 texture on the example object,
whose window is 400x400, and the 800x600 texture in a 1000x800 window. -/
theorem scale_is_min_ratio_witness :
    (updateImage uploadWorks (some [1, 2, 3, 4]) 1 1 4 shownExample).imageScale =
        min ((((400 : Int) : ℚ) - 40) / ((1 : Int) : ℚ)) ((((400 : Int) : ℚ) - 40) / ((1 : Int) : ℚ)) ∧
    fitScale 1000 800 ⟨1, 800, 600, 1, 7⟩ = 6 / 5 :=
  ⟨(scale_is_min_ratio 1 1 400 400 (by decide) (by decide)).1 uploadWorks shownExample
      [1, 2, 3, 4] 1 1 4 (by decide) (by decide) (by decide) (by decide) (by decide) (by decide),
    (scale_is_min_ratio 800 600 1000 800 (by decide) (by decide)).2.2 1 1 7⟩

/-! ## The interaction controller -/

theorem orbitStep_flags (inp : MouseInput) (s : PathTracerPreview) :
    (orbitStep inp s).orbiting = s.orbiting ∧ (orbitStep inp s).panning = s.panning := by
  simp only [orbitStep, PathTracerPreview.emit]
  split_ifs <;> exact ⟨rfl, rfl⟩

theorem panStep_flags (inp : MouseInput) (s : PathTracerPreview) :
    (panStep inp s).orbiting = s.orbiting ∧ (panStep inp s).panning = s.panning := by
  simp only [panStep, PathTracerPreview.emit]
  split_ifs <;> exact ⟨rfl, rfl⟩

theorem leftButton_exclusive (inp : MouseInput) (s : PathTracerPreview)
    (h : ¬ (s.orbiting = true ∧ s.panning = true)) :
    ¬ ((leftButton inp s).orbiting = true ∧ (leftButton inp s).panning = true) := by
  unfold leftButton
  split_ifs <;> simp_all

theorem middleButton_exclusive (inp : MouseInput) (s : PathTracerPreview)
    (h : ¬ (s.orbiting = true ∧ s.panning = true)) :
    ¬ ((middleButton inp s).orbiting = true ∧ (middleButton inp s).panning = true) := by
  unfold middleButton
  split_ifs <;> simp_all

theorem handleMouseInteraction_exclusive (inp : MouseInput) (s : PathTracerPreview)
    (h : ¬ (s.orbiting = true ∧ s.panning = true)) :
    ¬ ((handleMouseInteraction inp s).orbiting = true ∧
      (handleMouseInteraction inp s).panning = true) := by
  unfold handleMouseInteraction
  cases s.engine with
  | none => exact h
  | some e =>
    show ¬ ((panStep inp (orbitStep inp (middleButton inp (leftButton inp s)))).orbiting = true ∧
      (panStep inp (orbitStep inp (middleButton inp (leftButton inp s)))).panning = true)
    rw [(panStep_flags _ _).1, (panStep_flags _ _).2, (orbitStep_flags _ _).1,
      (orbitStep_flags _ _).2]
    exact middleButton_exclusive inp _ (leftButton_exclusive inp s h)

/-- C10: from any object with orbiting = false and panning = false (as the
constructor leaves it), after any sequence of `handleMouseInteraction` calls,
each with any combination of left and middle press and release edges, any
pointer position and any engine answer, orbiting and panning are not both
true. -/
theorem orbit_pan_exclusive (s : PathTracerPreview) (inputs : List MouseInput)
    (horbit : s.orbiting = false) (hpan : s.panning = false) :
    ¬ ((inputs.foldl (fun acc inp => handleMouseInteraction inp acc) s).orbiting = true ∧
      (inputs.foldl (fun acc inp => handleMouseInteraction inp acc) s).panning = true) := by
  have hstart : ¬ (s.orbiting = true ∧ s.panning = true) := by simp [horbit, hpan]
  clear horbit hpan
  induction inputs generalizing s with
  | nil => simpa using hstart
  | cons inp rest ih =>
    simp only [List.foldl_cons]
    exact ih _ (handleMouseInteraction_exclusive inp s hstart)

/-- Witness for C10: with an engine set, a call with both buttons pressed at
once and then a call with a left press and a middle release. -/
theorem orbit_pan_exclusive_witness :
    ¬ (([⟨true, false, true, false, ⟨3, 4⟩, true⟩, ⟨true, false, false, true, ⟨5, 4⟩, true⟩].foldl
          (fun acc inp => handleMouseInteraction inp acc)
          (setEngine (some ⟨1⟩) (PathTracerPreview.create 400 400))).orbiting = true ∧
      ([⟨true, false, true, false, ⟨3, 4⟩, true⟩, ⟨true, false, false, true, ⟨5, 4⟩, true⟩].foldl
          (fun acc inp => handleMouseInteraction inp acc)
          (setEngine (some ⟨1⟩) (PathTracerPreview.create 400 400))).panning = true) :=
  orbit_pan_exclusive (setEngine (some ⟨1⟩) (PathTracerPreview.create 400 400))
    [⟨true, false, true, false, ⟨3, 4⟩, true⟩, ⟨true, false, false, true, ⟨5, 4⟩, true⟩] rfl rfl

/-- C11: in a `handleMouseInteraction` call with a non-null engine and exactly
one button edge, from any state: a left press ends in orbiting = true, panning
= false, a middle press ends in panning = true, orbiting = false, each with the
reference position equal to the current pointer position; a left release while
Orbiting and a middle release while Panning end in orbiting = false, panning =
false. The middle-press case holds in particular from Orbiting. -/
theorem single_edge_transitions (inp : MouseInput) (s : PathTracerPreview) (e : Engine)
    (heng : s.engine = some e) :
    (inp.leftPressed = true → inp.leftReleased = false → inp.middlePressed = false →
      inp.middleReleased = false →
      (handleMouseInteraction inp s).orbiting = true ∧
      (handleMouseInteraction inp s).panning = false ∧
      (handleMouseInteraction inp s).prevMousePos = inp.mousePosition) ∧
    (inp.leftPressed = false → inp.leftReleased = false → inp.middlePressed = true →
      inp.middleReleased = false →
      (handleMouseInteraction inp s).panning = true ∧
      (handleMouseInteraction inp s).orbiting = false ∧
      (handleMouseInteraction inp s).prevMousePos = inp.mousePosition) ∧
    (inp.leftPressed = false → inp.leftReleased = true → inp.middlePressed = false →
      inp.middleReleased = false → s.orbiting = true → s.panning = false →
      (handleMouseInteraction inp s).orbiting = false ∧
      (handleMouseInteraction inp s).panning = false) ∧
    (inp.leftPressed = false → inp.leftReleased = false → inp.middlePressed = false →
      inp.middleReleased = true → s.panning = true → s.orbiting = false →
      (handleMouseInteraction inp s).orbiting = false ∧
      (handleMouseInteraction inp s).panning = false) := by
  refine ⟨?_, ?_, ?_, ?_⟩
  · intro h1 h2 h3 h4
    simp [handleMouseInteraction, heng, panStep, orbitStep, middleButton, leftButton, h1, h2, h3,
      h4]
  · intro h1 h2 h3 h4
    simp [handleMouseInteraction, heng, panStep, orbitStep, middleButton, leftButton, h1, h2, h3,
      h4]
  · intro h1 h2 h3 h4 ho hp
    simp [handleMouseInteraction, heng, panStep, orbitStep, middleButton, leftButton, h1, h2, h3,
      h4, ho, hp]
  · intro h1 h2 h3 h4 hp ho
    simp [handleMouseInteraction, heng, panStep, orbitStep, middleButton, leftButton, h1, h2, h3,
      h4, ho, hp]

/-- Witness for C11: with an engine set and the object Orbiting (after a left
press), a call with only a middle press ends in Panning at the pointer. -/
theorem single_edge_transitions_witness :
    (handleMouseInteraction ⟨false, false, true, false, ⟨8, 6⟩, true⟩
        (handleMouseInteraction ⟨true, false, false, false, ⟨3, 4⟩, true⟩
          (setEngine (some ⟨1⟩) shownExample))).panning = true ∧
    (handleMouseInteraction ⟨false, false, true, false, ⟨8, 6⟩, true⟩
        (handleMouseInteraction ⟨true, false, false, false, ⟨3, 4⟩, true⟩
          (setEngine (some ⟨1⟩) shownExample))).orbiting = false ∧
    (handleMouseInteraction ⟨false, false, true, false, ⟨8, 6⟩, true⟩
        (handleMouseInteraction ⟨true, false, false, false, ⟨3, 4⟩, true⟩
          (setEngine (some ⟨1⟩) shownExample))).prevMousePos = ⟨8, 6⟩ :=
  (single_edge_transitions ⟨false, false, true, false, ⟨8, 6⟩, true⟩
    (handleMouseInteraction ⟨true, false, false, false, ⟨3, 4⟩, true⟩
      (setEngine (some ⟨1⟩) shownExample)) ⟨1⟩
    (by simp [handleMouseInteraction, setEngine, shownExample, PathTracerPreview.create,
      panStep, orbitStep, middleButton, leftButton])).2.1 rfl rfl rfl rfl

/-! ## The engine calls of a tick -/

theorem keepsInteraction_trans (a b c : PathTracerPreview) (hab : keepsInteraction a b)
    (hbc : keepsInteraction b c) : keepsInteraction a c := by
  obtain ⟨h1, h2, h3, h4, h5⟩ := hab
  obtain ⟨k1, k2, k3, k4, k5⟩ := hbc
  exact ⟨k1.trans h1, k2.trans h2, k3.trans h3, k4.trans h4, k5.trans h5⟩

theorem emit_keepsInteraction (s : PathTracerPreview) (e : Event) (he : isEngineCall e = false) :
    keepsInteraction s (s.emit e) := by
  simp [keepsInteraction, PathTracerPreview.emit, engineCalls, List.filter_append, he]

theorem updateImage_keepsInteraction (env : Env) (data : Option (List Byte))
    (width height channels : Int) (s : PathTracerPreview) :
    keepsInteraction s (updateImage env data width height channels s) := by
  unfold updateImage
  cases data with
  | none => exact emit_keepsInteraction s _ rfl
  | some bytes =>
    by_cases ht : s.texture.id = 0 <;> by_cases hn : width * height * 4 < 0 <;>
      by_cases hl : env.loaded.id = 0 <;>
      simp [ht, hn, hl, keepsInteraction, PathTracerPreview.emit, engineCalls,
        List.filter_append, isEngineCall]

theorem processImageQueue_keepsInteraction (env : Env) (s : PathTracerPreview) :
    keepsInteraction s (processImageQueue env s) := by
  unfold processImageQueue takeFront
  cases hq : s.imageQueue with
  | nil => simp [keepsInteraction]
  | cons front rest =>
    simp only [if_true]
    refine keepsInteraction_trans _ _ _ ?_
      (emit_keepsInteraction _ (Event.deleteArray front.data) rfl)
    refine keepsInteraction_trans s { s with imageQueue := rest } _ ?_
      (updateImage_keepsInteraction env _ _ _ _ _)
    simp [keepsInteraction]

theorem resizeStep_keepsInteraction (windowResized : Bool) (getScreenWidth getScreenHeight : Int)
    (s : PathTracerPreview) :
    keepsInteraction s (resizeStep windowResized getScreenWidth getScreenHeight s) ∧
    (resizeStep windowResized getScreenWidth getScreenHeight s).imageLoaded = s.imageLoaded := by
  unfold resizeStep
  by_cases hr : windowResized = true
  · by_cases hc : s.imageLoaded = true ∧ s.texture.id ≠ 0
    · rw [if_pos hr, if_pos hc]
      exact ⟨⟨rfl, rfl, rfl, rfl, rfl⟩, rfl⟩
    · rw [if_pos hr, if_neg hc]
      exact ⟨⟨rfl, rfl, rfl, rfl, rfl⟩, rfl⟩
  · rw [if_neg hr]
    exact ⟨⟨rfl, rfl, rfl, rfl, rfl⟩, rfl⟩

theorem drawStep_keepsInteraction (s : PathTracerPreview) : keepsInteraction s (drawStep s) := by
  have hp : isEngineCall (presented s) = false := by
    unfold presented
    split_ifs <;> rfl
  unfold drawStep
  refine keepsInteraction_trans _ _ _ ?_ (emit_keepsInteraction _ Event.EndDrawing rfl)
  refine keepsInteraction_trans _ _ _ ?_ (emit_keepsInteraction _ (presented s) hp)
  refine keepsInteraction_trans _ _ _ ?_ (emit_keepsInteraction _ Event.ClearBackground rfl)
  exact emit_keepsInteraction _ Event.BeginDrawing rfl

theorem buttons_trace (inp : MouseInput) (s : PathTracerPreview) :
    (middleButton inp (leftButton inp s)).trace = s.trace := by
  simp only [middleButton, leftButton]
  split_ifs <;> rfl

theorem orbitStep_quiet (inp : MouseInput) (s : PathTracerPreview)
    (hr : inp.rendering = false) : (orbitStep inp s).trace = s.trace := by
  have hr' : ¬ (inp.rendering = true) := by simp [hr]
  simp only [orbitStep, if_neg hr']
  split_ifs <;> rfl

theorem panStep_quiet (inp : MouseInput) (s : PathTracerPreview)
    (hr : inp.rendering = false) : (panStep inp s).trace = s.trace := by
  have hr' : ¬ (inp.rendering = true) := by simp [hr]
  simp only [panStep, if_neg hr']
  split_ifs <;> rfl

theorem handleMouseInteraction_quiet (inp : MouseInput) (s : PathTracerPreview)
    (h : s.engine = none ∨ inp.rendering = false) :
    (handleMouseInteraction inp s).trace = s.trace := by
  unfold handleMouseInteraction
  cases he : s.engine with
  | none => rfl
  | some e =>
    have hr : inp.rendering = false := by
      rcases h with h | h
      · rw [he] at h; exact absurd h (by simp)
      · exact h
    show (panStep inp (orbitStep inp (middleButton inp (leftButton inp s)))).trace = s.trace
    rw [panStep_quiet _ _ hr, orbitStep_quiet _ _ hr, buttons_trace]

theorem wheelStep_quiet (wheelMove : ℚ) (rendering : Bool) (s : PathTracerPreview)
    (h : s.engine = none ∨ rendering = false) : wheelStep wheelMove rendering s = s := by
  unfold wheelStep
  rcases h with h | h <;> simp [h]

theorem updateStep_quiet (inp : TickInput) (s : PathTracerPreview)
    (h : s.engine = none ∨ inp.mouse.rendering = false) :
    (updateStep inp s).trace = s.trace := by
  unfold updateStep
  split_ifs
  · rw [wheelStep_quiet _ _ _ h, handleMouseInteraction_quiet _ _ h]
  · rfl

theorem updateStep_idle (inp : TickInput) (s : PathTracerPreview)
    (h : s.imageLoaded = false ∨ s.engine = none) : updateStep inp s = s := by
  unfold updateStep
  by_cases hl : s.imageLoaded = true
  · have he : s.engine = none := by
      rcases h with h | h
      · rw [hl] at h; exact absurd h (by simp)
      · exact h
    rw [if_pos hl, wheelStep_quiet _ _ _ (Or.inl he)]
    simp [handleMouseInteraction, he]
  · rw [if_neg hl]

/-- C12: in a tick with the engine reference null, or with the engine answering
that it is not rendering, the wheel handling and `handleMouseInteraction` make
no external call at all, whatever the input and the state, and over the whole
iteration of `run` the engine calls (scene-update scope begin and end, orbit,
pan, dolly) are those made before: none is added. -/
theorem degraded_tick_has_no_engine_call (inp : TickInput) (s : PathTracerPreview)
    (h : s.engine = none ∨ inp.mouse.rendering = false) :
    (updateStep inp s).trace = s.trace ∧
    (updateStep inp
        (resizeStep inp.windowResized inp.getScreenWidth inp.getScreenHeight
          (processImageQueue inp.env s))).trace =
      (resizeStep inp.windowResized inp.getScreenWidth inp.getScreenHeight
        (processImageQueue inp.env s)).trace ∧
    engineCalls (runIteration inp s).trace = engineCalls s.trace := by
  have hp := processImageQueue_keepsInteraction inp.env s
  have hr := (resizeStep_keepsInteraction inp.windowResized inp.getScreenWidth
    inp.getScreenHeight (processImageQueue inp.env s)).1
  have hpr := keepsInteraction_trans _ _ _ hp hr
  have hmid : (resizeStep inp.windowResized inp.getScreenWidth inp.getScreenHeight
      (processImageQueue inp.env s)).engine = none ∨ inp.mouse.rendering = false := by
    rcases h with h | h
    · left; rw [hpr.1]; exact h
    · right; exact h
  have hu := updateStep_quiet inp _ hmid
  refine ⟨updateStep_quiet inp s h, hu, ?_⟩
  unfold runIteration
  rw [(drawStep_keepsInteraction _).2.2.2.2, hu]
  exact hpr.2.2.2.2

/-- Witness for C12: the example object Orbiting with an engine that is not
rendering; the wheel moves, the pointer has moved and the middle button is
pressed. -/
theorem degraded_tick_has_no_engine_call_witness :
    (updateStep ⟨uploadWorks, false, 400, 400, 1, ⟨false, false, true, false, ⟨3, 4⟩, false⟩⟩
        (handleMouseInteraction ⟨true, false, false, false, ⟨0, 0⟩, false⟩
          (setEngine (some ⟨1⟩) shownExample))).trace =
      (handleMouseInteraction ⟨true, false, false, false, ⟨0, 0⟩, false⟩
        (setEngine (some ⟨1⟩) shownExample)).trace :=
  (degraded_tick_has_no_engine_call
    ⟨uploadWorks, false, 400, 400, 1, ⟨false, false, true, false, ⟨3, 4⟩, false⟩⟩
    (handleMouseInteraction ⟨true, false, false, false, ⟨0, 0⟩, false⟩
      (setEngine (some ⟨1⟩) shownExample)) (Or.inr rfl)).1

/-- C15: in an iteration of `run` that reaches its update section with
imageLoaded false (no frame uploaded successfully so far, this iteration's
`processImageQueue` included), or with the engine reference null, whatever the
wheel, button-edge and pointer input: the update section changes nothing, so at
the end of the iteration orbiting, panning and the reference position have the
values they had at its start, and no engine call has been added. -/
theorem idle_tick_keeps_interaction (inp : TickInput) (s : PathTracerPreview)
    (h : (processImageQueue inp.env s).imageLoaded = false ∨ s.engine = none) :
    updateStep inp
        (resizeStep inp.windowResized inp.getScreenWidth inp.getScreenHeight
          (processImageQueue inp.env s)) =
      resizeStep inp.windowResized inp.getScreenWidth inp.getScreenHeight
        (processImageQueue inp.env s) ∧
    (runIteration inp s).orbiting = s.orbiting ∧
    (runIteration inp s).panning = s.panning ∧
    (runIteration inp s).prevMousePos = s.prevMousePos ∧
    engineCalls (runIteration inp s).trace = engineCalls s.trace := by
  have hp := processImageQueue_keepsInteraction inp.env s
  have hr := resizeStep_keepsInteraction inp.windowResized inp.getScreenWidth
    inp.getScreenHeight (processImageQueue inp.env s)
  have hpr := keepsInteraction_trans _ _ _ hp hr.1
  have hmid : (resizeStep inp.windowResized inp.getScreenWidth inp.getScreenHeight
      (processImageQueue inp.env s)).imageLoaded = false ∨
      (resizeStep inp.windowResized inp.getScreenWidth inp.getScreenHeight
        (processImageQueue inp.env s)).engine = none := by
    rcases h with h | h
    · left; rw [hr.2]; exact h
    · right; rw [hpr.1]; exact h
  have hu := updateStep_idle inp _ hmid
  have hd := drawStep_keepsInteraction
    (resizeStep inp.windowResized inp.getScreenWidth inp.getScreenHeight
      (processImageQueue inp.env s))
  have hall := keepsInteraction_trans _ _ _ hpr hd
  refine ⟨hu, ?_, ?_, ?_, ?_⟩ <;> unfold runIteration <;> rw [hu]
  · exact hall.2.1
  · exact hall.2.2.1
  · exact hall.2.2.2.1
  · exact hall.2.2.2.2

/-- Witness for C15: a freshly constructed object with an engine set and an
empty queue; a tick with a left press and a wheel move starts no gesture. -/
theorem idle_tick_keeps_interaction_witness :
    (runIteration ⟨uploadWorks, false, 400, 400, 1, ⟨true, false, false, false, ⟨3, 4⟩, true⟩⟩
        (setEngine (some ⟨1⟩) (PathTracerPreview.create 400 400))).orbiting =
      (setEngine (some ⟨1⟩) (PathTracerPreview.create 400 400)).orbiting :=
  (idle_tick_keeps_interaction
    ⟨uploadWorks, false, 400, 400, 1, ⟨true, false, false, false, ⟨3, 4⟩, true⟩⟩
    (setEngine (some ⟨1⟩) (PathTracerPreview.create 400 400)) (Or.inl rfl)).2.1

/-! ## Teardown -/

theorem clearLoop_fields (q : List ImageData) (s : PathTracerPreview) :
    (clearLoop q s).trace = s.trace ++ q.map (fun u => Event.deleteArray u.data) ∧
    (clearLoop q s).imageQueue = (if q = [] then s.imageQueue else []) ∧
    (clearLoop q s).texture = s.texture ∧
    (clearLoop q s).imageLoaded = s.imageLoaded ∧
    (clearLoop q s).imageScale = s.imageScale := by
  induction q generalizing s with
  | nil => simp [clearLoop]
  | cons u rest ih =>
    obtain ⟨h1, h2, h3, h4, h5⟩ :=
      ih { s.emit (Event.deleteArray u.data) with imageQueue := rest }
    refine ⟨?_, ?_, ?_, ?_, ?_⟩
    · simp only [clearLoop]; rw [h1]; simp [PathTracerPreview.emit]
    · simp only [clearLoop]; rw [h2]; simp
    · simp only [clearLoop]; rw [h3]; rfl
    · simp only [clearLoop]; rw [h4]; rfl
    · simp only [clearLoop]; rw [h5]; rfl

/-- C13: in every queue state, `clearImageQueue` leaves the queue empty; its
external calls are exactly one `delete[]` per queued unit, on that unit's
buffer, front first, so the buffers released by it are the queued buffers, each
once; it hands nothing to `LoadTextureFromImage`, and the texture, the loaded
flag and the scale are unchanged. -/
theorem clear_releases_each_once (s : PathTracerPreview) :
    (clearImageQueue s).imageQueue = [] ∧
    (clearImageQueue s).trace =
      s.trace ++ s.imageQueue.map (fun u => Event.deleteArray u.data) ∧
    released (clearImageQueue s).trace =
      released s.trace ++ s.imageQueue.map (fun u => u.data) ∧
    uploads (clearImageQueue s).trace = uploads s.trace ∧
    (clearImageQueue s).texture = s.texture ∧
    (clearImageQueue s).imageLoaded = s.imageLoaded ∧
    (clearImageQueue s).imageScale = s.imageScale := by
  obtain ⟨h1, h2, h3, h4, h5⟩ := clearLoop_fields s.imageQueue s
  have hmapR : ∀ q : List ImageData,
      released (q.map (fun u => Event.deleteArray u.data)) = q.map (fun u => u.data) := by
    intro q
    induction q with
    | nil => rfl
    | cons u rest ih => simp only [List.map_cons, released, List.filterMap_cons] at ih ⊢; rw [ih]
  have hmapU : ∀ q : List ImageData,
      uploads (q.map (fun u => Event.deleteArray u.data)) = [] := by
    intro q
    induction q with
    | nil => rfl
    | cons u rest ih => simp only [List.map_cons, uploads, List.filterMap_cons] at ih ⊢; rw [ih]
  refine ⟨?_, h1, ?_, ?_, h3, h4, h5⟩
  · unfold clearImageQueue
    rw [h2]
    split_ifs with hq
    · exact hq
    · rfl
  · unfold clearImageQueue
    rw [h1]
    unfold released
    rw [List.filterMap_append]
    exact congrArg _ (hmapR s.imageQueue)
  · unfold clearImageQueue
    rw [h1]
    unfold uploads
    rw [List.filterMap_append]
    have := hmapU s.imageQueue
    unfold uploads at this
    rw [this, List.append_nil]

/-- Five units queued and never drained, two of them with equal contents:
`clearImageQueue` releases the five buffers and uploads nothing. -/
theorem clear_five_queued :
    (queueAll fiveCalls (PathTracerPreview.create 400 400)).imageQueue.length = 5 ∧
    released (clearImageQueue (queueAll fiveCalls (PathTracerPreview.create 400 400))).trace =
      [some [1], some [2], some [2], some [4, 5, 6], some [7, 8, 9, 10]] ∧
    uploads (clearImageQueue (queueAll fiveCalls (PathTracerPreview.create 400 400))).trace = [] ∧
    (clearImageQueue (queueAll fiveCalls (PathTracerPreview.create 400 400))).imageQueue = [] := by
  refine ⟨by decide, by decide, by decide, by decide⟩

/-! ## Dragging -/

theorem orbitStep_off (inp : MouseInput) (s : PathTracerPreview) (h : s.orbiting = false) :
    orbitStep inp s = s := by
  simp [orbitStep, h]

theorem panStep_off (inp : MouseInput) (s : PathTracerPreview) (h : s.panning = false) :
    panStep inp s = s := by
  simp [panStep, h]

theorem orbitStep_still (inp : MouseInput) (s : PathTracerPreview)
    (hx : (inp.mousePosition.x - s.prevMousePos.x) * s.orbitSpeed = 0)
    (hy : (inp.mousePosition.y - s.prevMousePos.y) * s.orbitSpeed = 0) :
    orbitStep inp s = s := by
  have hz : ¬ ((inp.mousePosition.x - s.prevMousePos.x) * s.orbitSpeed ≠ 0 ∨
      (inp.mousePosition.y - s.prevMousePos.y) * s.orbitSpeed ≠ 0) := by
    rw [hx, hy]; simp
  simp only [orbitStep, if_neg hz]
  split_ifs <;> rfl

theorem panStep_still (inp : MouseInput) (s : PathTracerPreview)
    (hx : (inp.mousePosition.x - s.prevMousePos.x) * s.panSpeed = 0)
    (hy : (inp.mousePosition.y - s.prevMousePos.y) * s.panSpeed = 0) :
    panStep inp s = s := by
  have hz : ¬ ((inp.mousePosition.x - s.prevMousePos.x) * s.panSpeed ≠ 0 ∨
      (inp.mousePosition.y - s.prevMousePos.y) * s.panSpeed ≠ 0) := by
    rw [hx, hy]; simp
  simp only [panStep, if_neg hz]
  split_ifs <;> rfl

theorem orbitStep_moving (inp : MouseInput) (s : PathTracerPreview)
    (ho : s.orbiting = true) (hr : inp.rendering = true)
    (hmove : (inp.mousePosition.x - s.prevMousePos.x) * s.orbitSpeed ≠ 0 ∨
      (inp.mousePosition.y - s.prevMousePos.y) * s.orbitSpeed ≠ 0) :
    (orbitStep inp s).trace =
      s.trace ++ [Event.EventScopeBegin,
        Event.orbitCamera ((inp.mousePosition.x - s.prevMousePos.x) * s.orbitSpeed)
          ((inp.mousePosition.y - s.prevMousePos.y) * s.orbitSpeed),
        Event.EventScopeEnd] ∧
    (orbitStep inp s).prevMousePos = inp.mousePosition ∧
    (orbitStep inp s).panning = s.panning := by
  simp only [orbitStep, if_pos ho, if_pos hr, if_pos hmove, PathTracerPreview.emit]
  simp

theorem panStep_moving (inp : MouseInput) (s : PathTracerPreview)
    (hp : s.panning = true) (hr : inp.rendering = true)
    (hmove : (inp.mousePosition.x - s.prevMousePos.x) * s.panSpeed ≠ 0 ∨
      (inp.mousePosition.y - s.prevMousePos.y) * s.panSpeed ≠ 0) :
    (panStep inp s).trace =
      s.trace ++ [Event.EventScopeBegin,
        Event.panCamera ((inp.mousePosition.x - s.prevMousePos.x) * s.panSpeed)
          ((inp.mousePosition.y - s.prevMousePos.y) * s.panSpeed) true,
        Event.EventScopeEnd] ∧
    (panStep inp s).prevMousePos = inp.mousePosition := by
  simp only [panStep, if_pos hp, if_pos hr, if_pos hmove, PathTracerPreview.emit]
  simp

theorem buttonHandling_keeps (inp : MouseInput) (s : PathTracerPreview) :
    (buttonHandling inp s).trace = s.trace ∧
    (buttonHandling inp s).orbitSpeed = s.orbitSpeed ∧
    (buttonHandling inp s).panSpeed = s.panSpeed := by
  simp only [buttonHandling, middleButton, leftButton]
  split_ifs <;> exact ⟨rfl, rfl, rfl⟩

theorem handleMouseInteraction_eq (inp : MouseInput) (s : PathTracerPreview) (e : Engine)
    (heng : s.engine = some e) :
    handleMouseInteraction inp s = panStep inp (orbitStep inp (buttonHandling inp s)) := by
  simp [handleMouseInteraction, heng, buttonHandling]

/-- C14: in a `handleMouseInteraction` call with a non-null engine that is
rendering, with orbit speed 1/2 and pan speed 1/100, let p be the reference
position and c the pointer position when the button handling is done. If the
call is then in Orbiting (resp. Panning) and (c - p) * speed is non-zero on
either axis, the call's external calls are exactly: scope begin, one orbit
(resp. pan with flag true) carrying (c - p) * speed, scope end; and the
reference position becomes c. If the delta is zero on both axes the call makes
no external call and the reference position stays p. -/
theorem drag_issues_one_command (inp : MouseInput) (s : PathTracerPreview) (e : Engine)
    (heng : s.engine = some e) (hrend : inp.rendering = true)
    (hos : s.orbitSpeed = 1 / 2) (hps : s.panSpeed = 1 / 100) :
    ((buttonHandling inp s).orbiting = true → (buttonHandling inp s).panning = false →
      (((inp.mousePosition.x - (buttonHandling inp s).prevMousePos.x) * (1 / 2) ≠ 0 ∨
          (inp.mousePosition.y - (buttonHandling inp s).prevMousePos.y) * (1 / 2) ≠ 0) →
        (handleMouseInteraction inp s).trace =
          s.trace ++ [Event.EventScopeBegin,
            Event.orbitCamera
              ((inp.mousePosition.x - (buttonHandling inp s).prevMousePos.x) * (1 / 2))
              ((inp.mousePosition.y - (buttonHandling inp s).prevMousePos.y) * (1 / 2)),
            Event.EventScopeEnd] ∧
        (handleMouseInteraction inp s).prevMousePos = inp.mousePosition) ∧
      (((inp.mousePosition.x - (buttonHandling inp s).prevMousePos.x) * (1 / 2) = 0 ∧
          (inp.mousePosition.y - (buttonHandling inp s).prevMousePos.y) * (1 / 2) = 0) →
        (handleMouseInteraction inp s).trace = s.trace ∧
        (handleMouseInteraction inp s).prevMousePos = (buttonHandling inp s).prevMousePos)) ∧
    ((buttonHandling inp s).panning = true → (buttonHandling inp s).orbiting = false →
      (((inp.mousePosition.x - (buttonHandling inp s).prevMousePos.x) * (1 / 100) ≠ 0 ∨
          (inp.mousePosition.y - (buttonHandling inp s).prevMousePos.y) * (1 / 100) ≠ 0) →
        (handleMouseInteraction inp s).trace =
          s.trace ++ [Event.EventScopeBegin,
            Event.panCamera
              ((inp.mousePosition.x - (buttonHandling inp s).prevMousePos.x) * (1 / 100))
              ((inp.mousePosition.y - (buttonHandling inp s).prevMousePos.y) * (1 / 100)) true,
            Event.EventScopeEnd] ∧
        (handleMouseInteraction inp s).prevMousePos = inp.mousePosition) ∧
      (((inp.mousePosition.x - (buttonHandling inp s).prevMousePos.x) * (1 / 100) = 0 ∧
          (inp.mousePosition.y - (buttonHandling inp s).prevMousePos.y) * (1 / 100) = 0) →
        (handleMouseInteraction inp s).trace = s.trace ∧
        (handleMouseInteraction inp s).prevMousePos = (buttonHandling inp s).prevMousePos)) := by
  obtain ⟨htr, hbo, hbp⟩ := buttonHandling_keeps inp s
  rw [hos] at hbo
  rw [hps] at hbp
  rw [handleMouseInteraction_eq inp s e heng]
  refine ⟨?_, ?_⟩
  · intro ho hp
    refine ⟨?_, ?_⟩
    · intro hmove
      rw [← hbo] at hmove ⊢
      obtain ⟨m1, m2, m3⟩ := orbitStep_moving inp (buttonHandling inp s) ho hrend hmove
      rw [panStep_off _ _ (m3.trans hp), m1, m2, htr]
      exact ⟨rfl, rfl⟩
    · intro hstill
      rw [← hbo] at hstill
      rw [orbitStep_still _ _ hstill.1 hstill.2, panStep_off _ _ hp, htr]
      exact ⟨rfl, rfl⟩
  · intro hp ho
    rw [orbitStep_off _ _ ho]
    refine ⟨?_, ?_⟩
    · intro hmove
      rw [← hbp] at hmove ⊢
      obtain ⟨m1, m2⟩ := panStep_moving inp (buttonHandling inp s) hp hrend hmove
      rw [m1, m2, htr]
      exact ⟨rfl, rfl⟩
    · intro hstill
      rw [← hbp] at hstill
      rw [panStep_still _ _ hstill.1 hstill.2, htr]
      exact ⟨rfl, rfl⟩

/-- Witness for C14: the object in Orbiting with reference position (0, 0); the
pointer is at (3, 4) and no button edge occurs. -/
theorem drag_issues_one_command_witness :
    (handleMouseInteraction ⟨false, false, false, false, ⟨3, 4⟩, true⟩ orbitingExample).trace =
      orbitingExample.trace ++ [Event.EventScopeBegin,
        Event.orbitCamera
          ((3 - (buttonHandling ⟨false, false, false, false, ⟨3, 4⟩, true⟩
            orbitingExample).prevMousePos.x) * (1 / 2))
          ((4 - (buttonHandling ⟨false, false, false, false, ⟨3, 4⟩, true⟩
            orbitingExample).prevMousePos.y) * (1 / 2)),
        Event.EventScopeEnd] ∧
    (handleMouseInteraction ⟨false, false, false, false, ⟨3, 4⟩, true⟩
      orbitingExample).prevMousePos = ⟨3, 4⟩ :=
  ((drag_issues_one_command ⟨false, false, false, false, ⟨3, 4⟩, true⟩ orbitingExample ⟨1⟩
    rfl rfl rfl rfl).1 rfl rfl).1
    (Or.inl (by
      simp [buttonHandling, middleButton, leftButton, orbitingExample, setEngine, shownExample,
        PathTracerPreview.create]))

/-! ## The drawn image in float arithmetic -/

theorem roundTiesEven_error (y : ℚ) : |(roundTiesEven y : ℚ) - y| ≤ 1 / 2 := by
  have h1 : (⌊y⌋ : ℚ) ≤ y := Int.floor_le y
  have h2 : y < (⌊y⌋ : ℚ) + 1 := Int.lt_floor_add_one y
  unfold roundTiesEven
  split_ifs with ha hb hc
  · rw [abs_le]; constructor <;> linarith
  · rw [abs_le]; push_cast; constructor <;> linarith
  · rw [abs_le]; constructor <;> linarith
  · rw [abs_le]; push_cast; constructor <;> linarith

theorem roundTiesEven_near (y : ℚ) (m : Int) (h : |y - (m : ℚ)| < 1 / 2) :
    roundTiesEven y = m := by
  rw [abs_lt] at h
  have h1 : (⌊y⌋ : ℚ) ≤ y := Int.floor_le y
  have h2 : y < (⌊y⌋ : ℚ) + 1 := Int.lt_floor_add_one y
  unfold roundTiesEven
  split_ifs with ha hb hc
  · have : ((⌊y⌋ - m : Int) : ℚ) < 1 := by push_cast; linarith
    have : ((m - ⌊y⌋ : Int) : ℚ) < 1 := by push_cast; linarith
    have a1 : ⌊y⌋ - m < 1 := by exact_mod_cast ‹((⌊y⌋ - m : Int) : ℚ) < 1›
    have a2 : m - ⌊y⌋ < 1 := by exact_mod_cast this
    omega
  · have h3 : ((⌊y⌋ + 1 - m : Int) : ℚ) < 1 := by push_cast; linarith
    have h4 : ((m - (⌊y⌋ + 1) : Int) : ℚ) < 1 := by push_cast; linarith
    have a1 : ⌊y⌋ + 1 - m < 1 := by exact_mod_cast h3
    have a2 : m - (⌊y⌋ + 1) < 1 := by exact_mod_cast h4
    omega
  · exfalso
    have he : y - (⌊y⌋ : ℚ) = 1 / 2 := le_antisymm (not_lt.mp hb) (not_lt.mp ha)
    have h3 : ((2 * (m - ⌊y⌋) : Int) : ℚ) < 2 := by push_cast; linarith
    have h4 : (0 : ℚ) < ((2 * (m - ⌊y⌋) : Int) : ℚ) := by push_cast; linarith
    have a1 : 2 * (m - ⌊y⌋) < 2 := by exact_mod_cast h3
    have a2 : 0 < 2 * (m - ⌊y⌋) := by exact_mod_cast h4
    omega
  · exfalso
    have he : y - (⌊y⌋ : ℚ) = 1 / 2 := le_antisymm (not_lt.mp hb) (not_lt.mp ha)
    have h3 : ((2 * (m - ⌊y⌋) : Int) : ℚ) < 2 := by push_cast; linarith
    have h4 : (0 : ℚ) < ((2 * (m - ⌊y⌋) : Int) : ℚ) := by push_cast; linarith
    have a1 : 2 * (m - ⌊y⌋) < 2 := by exact_mod_cast h3
    have a2 : 0 < 2 * (m - ⌊y⌋) := by exact_mod_cast h4
    omega

theorem roundTiesEven_intCast (m : Int) : roundTiesEven (m : ℚ) = m :=
  roundTiesEven_near _ m (by simp)

theorem two_zpow_pos (k : Int) : (0 : ℚ) < (2 : ℚ) ^ k := zpow_pos (by norm_num) k

/-- The rounding error is at most half a unit in the last place. -/
theorem roundFloat_halfUlp (x : ℚ) :
    |roundFloat x - x| ≤ (2 : ℚ) ^ ulpExponent x / 2 := by
  have hp := two_zpow_pos (ulpExponent x)
  have h := roundTiesEven_error (x / (2 : ℚ) ^ ulpExponent x)
  have hx : x = x / (2 : ℚ) ^ ulpExponent x * (2 : ℚ) ^ ulpExponent x := by
    field_simp
  unfold roundFloat
  have e : (roundTiesEven (x / (2 : ℚ) ^ ulpExponent x) : ℚ) * (2 : ℚ) ^ ulpExponent x - x =
      ((roundTiesEven (x / (2 : ℚ) ^ ulpExponent x) : ℚ) - x / (2 : ℚ) ^ ulpExponent x) *
        (2 : ℚ) ^ ulpExponent x := by
    rw [sub_mul]; congr 1
  rw [e, abs_mul, abs_of_pos hp]
  calc |(roundTiesEven (x / (2 : ℚ) ^ ulpExponent x) : ℚ) - x / (2 : ℚ) ^ ulpExponent x| *
        (2 : ℚ) ^ ulpExponent x ≤ 1 / 2 * (2 : ℚ) ^ ulpExponent x :=
        mul_le_mul_of_nonneg_right h (le_of_lt hp)
    _ = (2 : ℚ) ^ ulpExponent x / 2 := by ring

theorem roundFloat_zero : roundFloat 0 = 0 := by
  simp [roundFloat, roundTiesEven]

theorem ulp_le (x : ℚ) (hx : x ≠ 0) :
    (2 : ℚ) ^ ulpExponent x ≤ |x| / 2 ^ 23 + 1 / 2 ^ 149 := by
  unfold ulpExponent
  have hpos : 0 < |x| := abs_pos.mpr hx
  by_cases hl : -126 ≤ Int.log 2 |x|
  · rw [max_eq_left hl]
    have h1 : ((2 : ℕ) : ℚ) ^ Int.log 2 |x| ≤ |x| := Int.zpow_log_le_self (by norm_num) hpos
    have h2 : (2 : ℚ) ^ (Int.log 2 |x| - 23) = (2 : ℚ) ^ Int.log 2 |x| / 2 ^ 23 := by
      rw [zpow_sub₀ (by norm_num)]; norm_num
    rw [h2]
    have h3 : (2 : ℚ) ^ Int.log 2 |x| / 2 ^ 23 ≤ |x| / 2 ^ 23 := by
      apply div_le_div_of_nonneg_right _ (by positivity)
      exact_mod_cast h1
    linarith [show (0 : ℚ) ≤ 1 / 2 ^ 149 by positivity]
  · rw [max_eq_right (by omega)]
    have : (2 : ℚ) ^ ((-126 : Int) - 23) = 1 / 2 ^ 149 := by
      norm_num [zpow_neg]
    rw [this]
    linarith [show (0 : ℚ) ≤ |x| / 2 ^ 23 by positivity]

/-- The rounding error is at most 2^-24 of the value, plus 2^-150. -/
theorem roundFloat_error (x : ℚ) :
    |roundFloat x - x| ≤ |x| / 2 ^ 24 + 1 / 2 ^ 150 := by
  by_cases hx : x = 0
  · subst hx
    rw [roundFloat_zero]
    simp
  have h1 := roundFloat_halfUlp x
  have h2 := ulp_le x hx
  have : (2 : ℚ) ^ ulpExponent x / 2 ≤ (|x| / 2 ^ 23 + 1 / 2 ^ 149) / 2 := by linarith
  calc |roundFloat x - x| ≤ (2 : ℚ) ^ ulpExponent x / 2 := h1
    _ ≤ (|x| / 2 ^ 23 + 1 / 2 ^ 149) / 2 := this
    _ = |x| / 2 ^ 24 + 1 / 2 ^ 150 := by ring

theorem log_two_eq (x : ℚ) (e : Int) (hx : 0 < x) (h1 : (2 : ℚ) ^ e ≤ x)
    (h2 : x < (2 : ℚ) ^ (e + 1)) : Int.log 2 x = e := by
  have a1 : e ≤ Int.log 2 x := by
    rw [← Int.zpow_le_iff_le_log (by norm_num) hx]; exact_mod_cast h1
  have a2 : Int.log 2 x < e + 1 := by
    rw [← Int.lt_zpow_iff_log_lt (by norm_num) hx]; exact_mod_cast h2
  omega

/-- The value of `roundFloat` in the normal range, away from a tie. -/
theorem roundFloat_normal (x : ℚ) (e m : Int) (h1 : (2 : ℚ) ^ e ≤ |x|)
    (h2 : |x| < (2 : ℚ) ^ (e + 1)) (he : -126 ≤ e)
    (hm : |x / (2 : ℚ) ^ (e - 23) - (m : ℚ)| < 1 / 2) :
    roundFloat x = (m : ℚ) * (2 : ℚ) ^ (e - 23) := by
  have hpos : 0 < |x| := lt_of_lt_of_le (two_zpow_pos e) h1
  have hu : ulpExponent x = e - 23 := by
    unfold ulpExponent
    rw [log_two_eq |x| e hpos h1 h2, max_eq_left he]
  unfold roundFloat
  rw [hu, roundTiesEven_near _ m hm]

/-- A dyadic number with a significand below 2^24 is a float. -/
theorem roundFloat_dyadic (m k : Int) (hm : |m| < 2 ^ 24) (hk : -149 ≤ k) :
    roundFloat ((m : ℚ) * (2 : ℚ) ^ k) = (m : ℚ) * (2 : ℚ) ^ k := by
  by_cases h0 : m = 0
  · subst h0; simp [roundFloat_zero]
  have hk2 := two_zpow_pos k
  have hmq : (0 : ℚ) < |(m : ℚ)| := abs_pos.mpr (by exact_mod_cast h0)
  have hxpos : 0 < |(m : ℚ) * (2 : ℚ) ^ k| := by
    rw [abs_mul, abs_of_pos hk2]; positivity
  have hmlt : |(m : ℚ)| < 2 ^ 24 := by
    have : ((|m| : Int) : ℚ) < ((2 ^ 24 : Int) : ℚ) := by exact_mod_cast hm
    simpa using this
  have hlog : Int.log 2 |(m : ℚ) * (2 : ℚ) ^ k| < k + 24 := by
    rw [← Int.lt_zpow_iff_log_lt (by norm_num) hxpos]
    rw [abs_mul, abs_of_pos hk2]
    have e : ((2 : ℕ) : ℚ) ^ (k + 24) = 2 ^ 24 * (2 : ℚ) ^ k := by
      rw [zpow_add₀ (by norm_num)]; norm_num; ring
    rw [e]
    exact mul_lt_mul_of_pos_right hmlt hk2
  have hu : ulpExponent ((m : ℚ) * (2 : ℚ) ^ k) ≤ k := by
    unfold ulpExponent
    have := max_le (show Int.log 2 |(m : ℚ) * (2 : ℚ) ^ k| ≤ k + 23 by omega)
      (show (-126 : Int) ≤ k + 23 by omega)
    omega
  obtain ⟨n, hn⟩ := Int.eq_ofNat_of_zero_le (show 0 ≤ k - ulpExponent ((m : ℚ) * (2 : ℚ) ^ k) by omega)
  have hq : (m : ℚ) * (2 : ℚ) ^ k / (2 : ℚ) ^ ulpExponent ((m : ℚ) * (2 : ℚ) ^ k) =
      ((m * 2 ^ n : Int) : ℚ) := by
    rw [mul_div_assoc, ← zpow_sub₀ (by norm_num), hn]
    push_cast
    rw [zpow_natCast]
  unfold roundFloat
  rw [hq, roundTiesEven_intCast]
  rw [← hq]
  field_simp

theorem roundFloat_intCast (n : Int) (hn : |n| < 2 ^ 24) : roundFloat (n : ℚ) = (n : ℚ) := by
  have := roundFloat_dyadic n 0 hn (by decide)
  simpa using this

theorem roundFloat_half (n : Int) (hn : |n| < 2 ^ 24) :
    roundFloat ((n : ℚ) / 2) = (n : ℚ) / 2 := by
  have := roundFloat_dyadic n (-1) hn (by decide)
  have e : (n : ℚ) * (2 : ℚ) ^ (-1 : Int) = (n : ℚ) / 2 := by
    rw [zpow_neg_one]; ring
  rw [e] at this
  exact this

theorem ex_ratioX : ratioFloat 960 800 = 5033165 / 4194304 := by
  unfold ratioFloat
  rw [roundFloat_intCast 960 (by decide), roundFloat_intCast 800 (by decide)]
  rw [roundFloat_normal _ 0 10066330 (by norm_num [abs_of_pos]) (by norm_num [abs_of_pos])
    (by decide) (by rw [abs_lt]; norm_num)]
  norm_num

theorem ex_ratioY : ratioFloat 760 600 = 5312785 / 4194304 := by
  unfold ratioFloat
  rw [roundFloat_intCast 760 (by decide), roundFloat_intCast 600 (by decide)]
  rw [roundFloat_normal _ 0 10625570 (by norm_num [abs_of_pos]) (by norm_num [abs_of_pos])
    (by decide) (by rw [abs_lt]; norm_num)]
  norm_num

theorem ex_product : roundFloat (roundFloat ((800 : Int) : ℚ) * (5033165 / 4194304)) =
    15728641 / 16384 := by
  rw [roundFloat_intCast 800 (by decide)]
  rw [roundFloat_normal _ 9 15728641 (by norm_num [abs_of_pos]) (by norm_num [abs_of_pos])
    (by decide) (by rw [abs_lt]; norm_num)]
  norm_num

theorem ex_origin : originFloat 1000 800 (5033165 / 4194304) = 655359 / 32768 := by
  unfold originFloat
  rw [ex_product, roundFloat_intCast 1000 (by decide)]
  have h1 : roundFloat (((1000 : Int) : ℚ) / 2) = 500 := by
    rw [roundFloat_half 1000 (by decide)]; norm_num
  have h2 : roundFloat ((15728641 : ℚ) / 16384 / 2) = 15728641 / 32768 := by
    have := roundFloat_dyadic 15728641 (-15) (by decide) (by decide)
    norm_num at this ⊢
    exact this
  have h3 : roundFloat ((500 : ℚ) - 15728641 / 32768) = 655359 / 32768 := by
    have := roundFloat_dyadic 655359 (-15) (by decide) (by decide)
    norm_num at this ⊢
    exact this
  rw [h1, h2, h3]

theorem ratioFloat_error (a tw : Int) (ha : |a| < 2 ^ 24) (htw : 1 ≤ tw) (htw2 : tw < 2 ^ 24) :
    |(tw : ℚ) * ratioFloat a tw - (a : ℚ)| ≤ (|(a : ℚ)| + 1) / 2 ^ 24 := by
  unfold ratioFloat
  rw [roundFloat_intCast a ha,
    roundFloat_intCast tw (by rw [abs_of_nonneg (by omega)]; exact htw2)]
  have hT : (1 : ℚ) ≤ (tw : ℚ) := by exact_mod_cast htw
  have hT2 : (tw : ℚ) ≤ 2 ^ 24 := by
    have : ((tw : Int) : ℚ) < ((2 ^ 24 : Int) : ℚ) := by exact_mod_cast htw2
    push_cast at this
    linarith
  have hTpos : (0 : ℚ) < (tw : ℚ) := by linarith
  have herr := roundFloat_error ((a : ℚ) / (tw : ℚ))
  have e1 : (tw : ℚ) * roundFloat ((a : ℚ) / (tw : ℚ)) - (a : ℚ) =
      (tw : ℚ) * (roundFloat ((a : ℚ) / (tw : ℚ)) - (a : ℚ) / (tw : ℚ)) := by
    field_simp
    ring
  have e2 : (tw : ℚ) * |(a : ℚ) / (tw : ℚ)| = |(a : ℚ)| := by
    rw [abs_div, abs_of_pos hTpos]; field_simp
  rw [e1, abs_mul, abs_of_pos hTpos]
  calc (tw : ℚ) * |roundFloat ((a : ℚ) / (tw : ℚ)) - (a : ℚ) / (tw : ℚ)|
      ≤ (tw : ℚ) * (|(a : ℚ) / (tw : ℚ)| / 2 ^ 24 + 1 / 2 ^ 150) :=
        mul_le_mul_of_nonneg_left herr (le_of_lt hTpos)
    _ = |(a : ℚ)| / 2 ^ 24 + (tw : ℚ) / 2 ^ 150 := by
        rw [mul_add, ← mul_div_assoc, e2]; ring
    _ ≤ |(a : ℚ)| / 2 ^ 24 + 2 ^ 24 / 2 ^ 150 := by
        have : (tw : ℚ) / 2 ^ 150 ≤ 2 ^ 24 / 2 ^ 150 :=
          div_le_div_of_nonneg_right hT2 (by positivity)
        linarith
    _ ≤ (|(a : ℚ)| + 1) / 2 ^ 24 := by
        have : (2 : ℚ) ^ 24 / 2 ^ 150 ≤ 1 / 2 ^ 24 := by norm_num
        rw [add_div]
        linarith

theorem up_mono (q U : ℚ) (h : q ≤ U) : q + |q| / 2 ^ 24 ≤ U + |U| / 2 ^ 24 := by
  rcases abs_cases q with ⟨hq, _⟩ | ⟨hq, _⟩ <;> rcases abs_cases U with ⟨hU, _⟩ | ⟨hU, _⟩ <;>
    rw [hq, hU] <;> norm_num <;> linarith

theorem down_mono (q U : ℚ) (h : q ≤ U) : q - |q| / 2 ^ 24 ≤ U - |U| / 2 ^ 24 := by
  rcases abs_cases q with ⟨hq, _⟩ | ⟨hq, _⟩ <;> rcases abs_cases U with ⟨hU, _⟩ | ⟨hU, _⟩ <;>
    rw [hq, hU] <;> norm_num <;> linarith

theorem roundFloat_upper (x B : ℚ) (h : x ≤ B) :
    roundFloat x ≤ B + |B| / 2 ^ 24 + 1 / 2 ^ 150 := by
  have herr := roundFloat_error x
  rw [abs_le] at herr
  have := up_mono x B h
  linarith [herr.2]

theorem roundFloat_lower (x B : ℚ) (h : B ≤ x) :
    B - |B| / 2 ^ 24 - 1 / 2 ^ 150 ≤ roundFloat x := by
  have herr := roundFloat_error x
  rw [abs_le] at herr
  have := down_mono B x h
  linarith [herr.1]

theorem originFloat_lower (w tw : Int) (sc : ℚ) (hw0 : 0 ≤ w) (hw : w < 2 ^ 24)
    (htw : 1 ≤ tw) (htw2 : tw < 2 ^ 24)
    (hsc : (tw : ℚ) * sc ≤ ((w : ℚ) - 40) + (|(w : ℚ) - 40| + 1) / 2 ^ 24) :
    20 - (|(w : ℚ) - 40| + 20) / 2 ^ 23 ≤ originFloat w tw sc := by
  unfold originFloat
  rw [roundFloat_intCast w (by rw [abs_of_nonneg hw0]; exact hw),
    roundFloat_intCast tw (by rw [abs_of_nonneg (by omega)]; exact htw2),
    roundFloat_half w (by rw [abs_of_nonneg hw0]; exact hw)]
  have hwq0 : (0 : ℚ) ≤ (w : ℚ) := by exact_mod_cast hw0
  have hwq : (w : ℚ) ≤ 2 ^ 24 := by
    have : ((w : Int) : ℚ) < ((2 ^ 24 : Int) : ℚ) := by exact_mod_cast hw
    push_cast at this
    linarith
  obtain ⟨hA0, hA1, hA2, hA3⟩ : (0 : ℚ) ≤ |(w : ℚ) - 40| ∧ (w : ℚ) - 40 ≤ |(w : ℚ) - 40| ∧
      -((w : ℚ) - 40) ≤ |(w : ℚ) - 40| ∧ |(w : ℚ) - 40| ≤ 2 ^ 24 :=
    ⟨abs_nonneg _, le_abs_self _, neg_le_abs _, by rw [abs_le]; constructor <;> linarith⟩
  generalize |(w : ℚ) - 40| = A at hsc hA0 hA1 hA2 hA3 ⊢
  have hP := roundFloat_upper _ _ hsc
  have hU : |(w : ℚ) - 40 + (A + 1) / 2 ^ 24| ≤ A + (A + 1) / 2 ^ 24 := by
    rw [abs_le]; constructor <;> linarith [show (0 : ℚ) ≤ (A + 1) / 2 ^ 24 by positivity]
  have hP2 : roundFloat ((tw : ℚ) * sc) / 2 ≤
      ((w : ℚ) - 40 + (A + 1) / 2 ^ 24 + (A + (A + 1) / 2 ^ 24) / 2 ^ 24 + 1 / 2 ^ 150) / 2 := by
    have : |(w : ℚ) - 40 + (A + 1) / 2 ^ 24| / 2 ^ 24 ≤ (A + (A + 1) / 2 ^ 24) / 2 ^ 24 :=
      div_le_div_of_nonneg_right hU (by positivity)
    linarith
  have hPh := roundFloat_upper _ _ hP2
  have hV : |((w : ℚ) - 40 + (A + 1) / 2 ^ 24 + (A + (A + 1) / 2 ^ 24) / 2 ^ 24 +
      1 / 2 ^ 150) / 2| ≤ (A + (A + 1) / 2 ^ 24 + (A + (A + 1) / 2 ^ 24) / 2 ^ 24 +
      1 / 2 ^ 150) / 2 := by
    rw [abs_le]
    constructor <;>
      linarith [show (0 : ℚ) ≤ (A + 1) / 2 ^ 24 by positivity,
        show (0 : ℚ) ≤ (A + (A + 1) / 2 ^ 24) / 2 ^ 24 by positivity,
        show (0 : ℚ) ≤ 1 / 2 ^ 150 by positivity]
  have hV' := div_le_div_of_nonneg_right hV (show (0 : ℚ) ≤ 2 ^ 24 by positivity)
  have hD : (w : ℚ) / 2 -
      (((w : ℚ) - 40 + (A + 1) / 2 ^ 24 + (A + (A + 1) / 2 ^ 24) / 2 ^ 24 + 1 / 2 ^ 150) / 2 +
        (A + (A + 1) / 2 ^ 24 + (A + (A + 1) / 2 ^ 24) / 2 ^ 24 + 1 / 2 ^ 150) / 2 / 2 ^ 24 +
        1 / 2 ^ 150) ≤
      (w : ℚ) / 2 - roundFloat (roundFloat ((tw : ℚ) * sc) / 2) := by
    linarith
  have hx := roundFloat_lower _ _ hD
  have hDm : |(w : ℚ) / 2 -
      (((w : ℚ) - 40 + (A + 1) / 2 ^ 24 + (A + (A + 1) / 2 ^ 24) / 2 ^ 24 + 1 / 2 ^ 150) / 2 +
        (A + (A + 1) / 2 ^ 24 + (A + (A + 1) / 2 ^ 24) / 2 ^ 24 + 1 / 2 ^ 150) / 2 / 2 ^ 24 +
        1 / 2 ^ 150)| ≤ 20 := by
    rw [abs_le]
    constructor
    · norm_num at hA3 ⊢; linarith
    · norm_num at hA3 ⊢; linarith
  have hDm' := div_le_div_of_nonneg_right hDm (show (0 : ℚ) ≤ 2 ^ 24 by positivity)
  norm_num at hx hDm' hA3 ⊢
  linarith

theorem specExample_scale : specExample.imageScale = 5033165 / 4194304 := by
  show fitScaleFloat 1000 800 ⟨1, 800, 600, 1, 7⟩ = 5033165 / 4194304
  have hx : ratioFloat (1000 - 40) 800 = 5033165 / 4194304 := ex_ratioX
  have hy : ratioFloat (800 - 40) 600 = 5312785 / 4194304 := ex_ratioY
  simp only [fitScaleFloat, hx, hy]
  norm_num

/-- C9 (counterexample): for the 800x600 texture in the 1000x800 window, in the
float arithmetic of the code the stored scale is 5033165/4194304 (1.2f), so
tw*scale exceeds w - 40 = 960, as an exact product and as the float product the
draw computes (15728641/16384); tw*scale is not 960 and th*scale is not 760;
and the origin x the draw computes is 655359/32768, below 20. -/
theorem rounded_scale_overshoots :
    specExample.imageScale = 5033165 / 4194304 ∧
    ¬ ((800 : ℚ) * specExample.imageScale ≤ 1000 - 40) ∧
    roundFloat (roundFloat ((800 : Int) : ℚ) * specExample.imageScale) = 15728641 / 16384 ∧
    ¬ ((15728641 : ℚ) / 16384 ≤ 1000 - 40) ∧
    (800 : ℚ) * specExample.imageScale ≠ 1000 - 40 ∧
    (600 : ℚ) * specExample.imageScale ≠ 800 - 40 ∧
    (drawPositionFloat specExample).x = 655359 / 32768 ∧
    ¬ ((20 : ℚ) ≤ (drawPositionFloat specExample).x) := by
  have hs := specExample_scale
  have hx : (drawPositionFloat specExample).x = 655359 / 32768 := by
    show originFloat 1000 800 specExample.imageScale = 655359 / 32768
    rw [hs]; exact ex_origin
  refine ⟨hs, ?_, ?_, ?_, ?_, ?_, hx, ?_⟩
  · rw [hs]; norm_num
  · rw [hs]; exact ex_product
  · norm_num
  · rw [hs]; norm_num
  · rw [hs]; norm_num
  · rw [hx]; norm_num

theorem intCast_abs_lt (n : Int) (h0 : 0 ≤ n) (h1 : n < 2 ^ 24) : |n - 40| < 2 ^ 24 := by
  rw [abs_lt]; constructor <;> omega

/-- C9 (amended): for a texture of size tw x th and a window of size w x h, with
1 <= tw, th < 2^24 and 0 <= w, h < 2^24, with the scale computed as in
`updateImage` and the draw origin computed as in `run`, both in float
arithmetic, the drawn image fits the window less the margin up to rounding:
tw*scale <= (w - 40) + (|w - 40| + 1) / 2^24 and th*scale <= (h - 40) +
(|h - 40| + 1) / 2^24, on at least one axis the product is within that distance
of the bound, and the origin satisfies x >= 20 - (|w - 40| + 20) / 2^23 and
y >= 20 - (|h - 40| + 20) / 2^23. -/
theorem drawn_image_fits_rounded (tw th w h : Int) (s : PathTracerPreview)
    (htw : 1 ≤ tw) (htw2 : tw < 2 ^ 24) (hth : 1 ≤ th) (hth2 : th < 2 ^ 24)
    (hw0 : 0 ≤ w) (hw2 : w < 2 ^ 24) (hh0 : 0 ≤ h) (hh2 : h < 2 ^ 24)
    (hsw : s.screenWidth = w) (hsh : s.screenHeight = h)
    (hwid : s.texture.width = tw) (hhei : s.texture.height = th)
    (hscale : s.imageScale = fitScaleFloat w h s.texture) :
    (tw : ℚ) * s.imageScale ≤ ((w : ℚ) - 40) + (|(w : ℚ) - 40| + 1) / 2 ^ 24 ∧
    (th : ℚ) * s.imageScale ≤ ((h : ℚ) - 40) + (|(h : ℚ) - 40| + 1) / 2 ^ 24 ∧
    (|(tw : ℚ) * s.imageScale - ((w : ℚ) - 40)| ≤ (|(w : ℚ) - 40| + 1) / 2 ^ 24 ∨
      |(th : ℚ) * s.imageScale - ((h : ℚ) - 40)| ≤ (|(h : ℚ) - 40| + 1) / 2 ^ 24) ∧
    20 - (|(w : ℚ) - 40| + 20) / 2 ^ 23 ≤ (drawPositionFloat s).x ∧
    20 - (|(h : ℚ) - 40| + 20) / 2 ^ 23 ≤ (drawPositionFloat s).y := by
  have ex := ratioFloat_error (w - 40) tw (intCast_abs_lt w hw0 hw2) htw htw2
  have ey := ratioFloat_error (h - 40) th (intCast_abs_lt h hh0 hh2) hth hth2
  push_cast at ex ey
  have hT : (0 : ℚ) < (tw : ℚ) := by exact_mod_cast (by omega : 0 < tw)
  have hH : (0 : ℚ) < (th : ℚ) := by exact_mod_cast (by omega : 0 < th)
  have hfit : (tw : ℚ) * s.imageScale ≤ ((w : ℚ) - 40) + (|(w : ℚ) - 40| + 1) / 2 ^ 24 ∧
      (th : ℚ) * s.imageScale ≤ ((h : ℚ) - 40) + (|(h : ℚ) - 40| + 1) / 2 ^ 24 ∧
      (|(tw : ℚ) * s.imageScale - ((w : ℚ) - 40)| ≤ (|(w : ℚ) - 40| + 1) / 2 ^ 24 ∨
        |(th : ℚ) * s.imageScale - ((h : ℚ) - 40)| ≤ (|(h : ℚ) - 40| + 1) / 2 ^ 24) := by
    rw [hscale]
    simp only [fitScaleFloat, hwid, hhei]
    by_cases hlt : ratioFloat (w - 40) tw < ratioFloat (h - 40) th
    · rw [if_pos hlt]
      have hle : (th : ℚ) * ratioFloat (w - 40) tw ≤ (th : ℚ) * ratioFloat (h - 40) th :=
        mul_le_mul_of_nonneg_left (le_of_lt hlt) (le_of_lt hH)
      refine ⟨?_, ?_, Or.inl ex⟩
      · have := (abs_le.mp ex).2; linarith
      · have := (abs_le.mp ey).2; linarith
    · rw [if_neg hlt]
      have hle : (tw : ℚ) * ratioFloat (h - 40) th ≤ (tw : ℚ) * ratioFloat (w - 40) tw :=
        mul_le_mul_of_nonneg_left (not_lt.mp hlt) (le_of_lt hT)
      refine ⟨?_, ?_, Or.inr ey⟩
      · have := (abs_le.mp ex).2; linarith
      · have := (abs_le.mp ey).2; linarith
  refine ⟨hfit.1, hfit.2.1, hfit.2.2, ?_, ?_⟩
  · show _ ≤ originFloat s.screenWidth s.texture.width s.imageScale
    rw [hsw, hwid]
    exact originFloat_lower w tw s.imageScale hw0 hw2 htw htw2 hfit.1
  · show _ ≤ originFloat s.screenHeight s.texture.height s.imageScale
    rw [hsh, hhei]
    exact originFloat_lower h th s.imageScale hh0 hh2 hth hth2 hfit.2.1

/-- Witness for C9 (amended): the 800x600 texture in the 1000x800 window. -/
theorem drawn_image_fits_rounded_witness :
    (20 : ℚ) - (|((1000 : Int) : ℚ) - 40| + 20) / 2 ^ 23 ≤ (drawPositionFloat specExample).x ∧
    ((800 : Int) : ℚ) * specExample.imageScale ≤
      (((1000 : Int) : ℚ) - 40) + (|((1000 : Int) : ℚ) - 40| + 1) / 2 ^ 24 :=
  ⟨(drawn_image_fits_rounded 800 600 1000 800 specExample (by decide) (by decide) (by decide)
      (by decide) (by decide) (by decide) (by decide) (by decide) rfl rfl rfl rfl rfl).2.2.2.1,
    (drawn_image_fits_rounded 800 600 1000 800 specExample (by decide) (by decide) (by decide)
      (by decide) (by decide) (by decide) (by decide) (by decide) rfl rfl rfl rfl rfl).1⟩

end PoomerPreview
